import Mathlib

/-!
Verification of the smmalloc size-class segregated allocator
(`src/Source/Native/smmalloc.h`).

The embedding models pointers and machine words as `Nat` with explicit
`% 2^32` / `% 2^64` where the C code performs fixed-width arithmetic or
casts.  Null pointers are the value `0`.  Byte memory is a total function
`Nat → Nat` read modulo 256.  The generic backing allocator (external per
the spec, §6) is a parameter `GenModel` of every operation, with an opaque
`Nat` instance state threaded through the allocator state.  Operations also
produce an event list recording the externally observable calls
(generic-allocator calls, `FreeInterval` invocations, cache pushes/pops,
`memmove`), which lets theorems speak about which collaborator was invoked
with which arguments.

The model is single-threaded: each `compare_exchange_strong` succeeds on
the first attempt, which is the linearized behaviour of the lock-free
loops.  Statistics (`SMMALLOC_STATS_SUPPORT`) are compiled out, as in the
default build.  `SMM_MAX_CACHE_ITEMS_COUNT` is 7 (the `_M_X64` branch; the
`static_assert (sizeof(TlsPoolBucket) <= 64)` only holds for that branch).
-/

namespace Smmalloc

/-- `Allocator::MaxValidAlignment` (smmalloc.h line 165). -/
def MaxValidAlignment : Nat := 16384

/-- `SMM_MAX_CACHE_ITEMS_COUNT` for the x64 configuration (line 47). -/
def SMM_MAX_CACHE_ITEMS_COUNT : Nat := 7

/-- `PoolBucket::TaggedIndex` (lines 174-183): a 64-bit union
`{ tag : u32 (low half), offset : u32 (high half) }`. -/
structure TaggedIndex where
  tag : Nat
  offset : Nat
deriving DecidableEq, Repr

/-- `TaggedIndex::Invalid = UINT64_MAX`, i.e. both 32-bit halves all-ones. -/
def TaggedIndex.invalid : TaggedIndex := ⟨2 ^ 32 - 1, 2 ^ 32 - 1⟩

/-- The 64-bit value of a tagged index (`u` member of the union): the tag
occupies the low 32 bits, the offset the high 32 bits. -/
def tiToU (t : TaggedIndex) : Nat := t.tag % 2 ^ 32 + t.offset % 2 ^ 32 * 2 ^ 32

/-- Byte memory: address to byte value (read modulo 256). -/
abbrev Mem := Nat → Nat

/-- Read a little-endian 64-bit word from memory. -/
def readU64 (mem : Mem) (a : Nat) : Nat :=
  (List.range 8).foldr (fun j acc => mem (a + j) % 256 + 256 * acc) 0

/-- Read a `TaggedIndex` stored in the first 8 bytes of a slot
(`*((TaggedIndex*)(p))`). -/
def readTI (mem : Mem) (a : Nat) : TaggedIndex :=
  ⟨readU64 mem a % 2 ^ 32, readU64 mem a / 2 ^ 32⟩

/-- Write a little-endian 64-bit word to memory. -/
def writeU64 (mem : Mem) (a v : Nat) : Mem :=
  fun x => if a ≤ x ∧ x < a + 8 then v / 256 ^ (x - a) % 256 else mem x

/-- Store a `TaggedIndex` into the first 8 bytes of a slot
(`*((TaggedIndex*)(pTail)) = headValue`). -/
def writeTI (mem : Mem) (a : Nat) (t : TaggedIndex) : Mem :=
  writeU64 mem a (tiToU t)

/-- `std::memmove(dst, src, len)`: the destination range receives the bytes
the source range held before the call; everything else is untouched. -/
def memmoveM (mem : Mem) (dst src len : Nat) : Mem :=
  fun x => if dst ≤ x ∧ x < dst + len then mem (src + (x - dst)) else mem x

/-- Pointwise update of a `Nat`-indexed store (array element assignment). -/
def updf {α : Type} (f : Nat → α) (i : Nat) (v : α) : Nat → α :=
  fun j => if j = i then v else f j

/-- `Allocator::PoolBucket` (lines 173-241): atomic head tagged-index,
monotone 32-bit tag counter, and the bucket's sub-region bounds. -/
structure PoolBucket where
  head : TaggedIndex
  globalTag : Nat
  pData : Nat
  pBufferEnd : Nat
deriving Repr

/-- `internal::TlsPoolBucket` (lines 480-531): the per-thread two-level
cache record.  `storageL0`/`storageL1` model the `uint32_t` arrays as
index-to-offset functions with explicit occupancy counters. -/
structure TlsPoolBucket where
  pBucketData : Nat
  storageL0 : Nat → Nat
  storageL1 : Nat → Nat
  maxElementsCount : Nat
  numElementsL1 : Nat
  numElementsL0 : Nat

/-- Contract of the external `GenericAllocator` (lines 139-160): pure
transition functions over an opaque instance state.  A returned pointer of
`0` is null (out of memory). -/
structure GenModel where
  alloc : Nat → Nat → Nat → Nat × Nat
  free : Nat → Nat → Nat
  realloc : Nat → Nat → Nat → Nat → Nat × Nat
  usable : Nat → Nat → Nat

/-- Observable events of one allocator operation. -/
inductive Ev where
  | cachePop (bucketIndex res : Nat)
  | bucketPop (bucketIndex res : Nat)
  | cachePush (p : Nat) (ok : Bool)
  | fi (pHead pTail : Nat)
  | memmoveEv (dst src len : Nat)
  | genAllocEv (n a res : Nat)
  | genFreeEv (p : Nat)
  | genReallocEv (p n a res : Nat)
deriving DecidableEq, Repr

/-- The `sm::Allocator` state (lines 162-477): configuration, arena bounds,
the bucket array, the per-thread cache records returned by `GetTlsBucket`
(single-threaded model: one record per bucket index), byte memory, and the
generic allocator instance state. -/
structure AllocState where
  bucketsCount : Nat
  bucketSizeInBytes : Nat
  pBuffer : Nat
  pBufferEnd : Nat
  buckets : Nat → PoolBucket
  tls : Nat → TlsPoolBucket
  mem : Mem
  gen : Nat

/-- Result of an operation returning a pointer. -/
structure OpRes where
  ptr : Nat
  st : AllocState
  evs : List Ev

/-- `Allocator::IsReadable` (lines 169-171): `uintptr_t(p) > MaxValidAlignment`. -/
def IsReadable (p : Nat) : Prop := MaxValidAlignment < p

instance (p : Nat) : Decidable (IsReadable p) := Nat.decLt _ _

/-- `Allocator::FindBucket` (lines 268-273): unsigned pointer arithmetic
`((uintptr_t)p - (uintptr_t)bucketsDataBegin[0]) / bucketSizeInBytes`; the
subtraction wraps modulo `2^64`. -/
def FindBucket (st : AllocState) (p : Nat) : Nat :=
  (p + 2 ^ 64 - st.pBuffer % 2 ^ 64) % 2 ^ 64 / st.bucketSizeInBytes

/-- `Allocator::IsMyAlloc` (lines 438-440): `p >= pBuffer && p < pBufferEnd`. -/
def IsMyAlloc (st : AllocState) (p : Nat) : Bool :=
  decide (st.pBuffer ≤ p) && decide (p < st.pBufferEnd)

/-- `Allocator::GetBucketElementSize` (lines 446-448): `(bucketIndex + 1) * 16`. -/
def GetBucketElementSize (bucketIndex : Nat) : Nat := (bucketIndex + 1) * 16

/-- `Allocator::GetBucketElementsCount` (lines 450-457). -/
def GetBucketElementsCount (st : AllocState) (bucketIndex : Nat) : Nat :=
  if st.bucketsCount ≤ bucketIndex then 0
  else st.bucketSizeInBytes / GetBucketElementSize bucketIndex

/-- `PoolBucket::Alloc` (lines 199-217): pop the head of the lock-free
LIFO.  Returns null if the head is the sentinel; otherwise the new head is
the tagged index stored in the popped slot's first bytes (the CAS succeeds
at once in the single-threaded model). -/
def PoolBucket.Alloc (b : PoolBucket) (mem : Mem) : Nat × PoolBucket :=
  if b.head = TaggedIndex.invalid then (0, b)
  else
    let p := b.pData + b.head.offset
    (p, { b with head := readTI mem p })

/-- `PoolBucket::FreeInterval` (lines 219-236): prepend the pre-linked
chain `[pHead, pTail]`.  `tag = globalTag.fetch_add(1)` (32-bit, relaxed),
the old head value is written into `pTail`'s first bytes, and the new head
is `{ tag, offset = pHead - pData }` (offset truncated to `uint32_t`). -/
def PoolBucket.FreeInterval (b : PoolBucket) (mem : Mem) (pHead pTail : Nat) :
    PoolBucket × Mem :=
  let tag := b.globalTag % 2 ^ 32
  let node : TaggedIndex := ⟨tag, (pHead + 2 ^ 64 - b.pData % 2 ^ 64) % 2 ^ 64 % 2 ^ 32⟩
  ({ b with head := node, globalTag := (b.globalTag + 1) % 2 ^ 32 },
   writeTI mem pTail b.head)

/-- `Allocator::AllocFromCache` (lines 537-560): pop L0 if non-empty, else
pop L1, else return null. -/
def AllocFromCache (t : TlsPoolBucket) : Nat × TlsPoolBucket :=
  if 0 < t.numElementsL0 then
    (t.pBucketData + t.storageL0 (t.numElementsL0 - 1),
     { t with numElementsL0 := t.numElementsL0 - 1 })
  else if 0 < t.numElementsL1 then
    (t.pBucketData + t.storageL1 (t.numElementsL1 - 1),
     { t with numElementsL1 := t.numElementsL1 - 1 })
  else (0, t)

/-- Loop body of `TlsPoolBucket::ReturnL1CacheToMaster` (lines 515-524):
rewrite each slot `storageL1[i-1]` in place as a tagged index pointing to
`storageL1[i]`, chaining the trailing entries; returns the final memory and
the chain tail pointer.  `fuel` is structural-recursion fuel; any
`fuel ≥ n - i` yields the loop's behaviour. -/
def returnLoop (L1 : Nat → Nat) (pBucketData : Nat) (mem : Mem)
    (pPrev : Nat) (i n localTag fuel : Nat) : Mem × Nat :=
  match fuel with
  | 0 => (mem, pPrev)
  | fuel + 1 =>
    if i < n then
      returnLoop L1 pBucketData (writeTI mem pPrev ⟨localTag, L1 i⟩)
        (pBucketData + L1 i) (i + 1) n (localTag + 1) fuel
    else (mem, pPrev)

/-- `TlsPoolBucket::ReturnL1CacheToMaster` (lines 498-530): return the
`min(count, numElementsL1)` trailing L1 entries to the bucket as one
pre-linked chain through a single `FreeInterval` call.  `localTag` starts
at `0xFFFFFF`. -/
def ReturnL1CacheToMaster (t : TlsPoolBucket) (b : PoolBucket) (mem : Mem)
    (count : Nat) : TlsPoolBucket × PoolBucket × Mem × List Ev :=
  if count = 0 then (t, b, mem, [])
  else if t.numElementsL1 = 0 then (t, b, mem, [])
  else
    let c := min count t.numElementsL1
    let first := t.numElementsL1 - c
    let pHead := t.pBucketData + t.storageL1 first
    let rl := returnLoop t.storageL1 t.pBucketData mem pHead (first + 1)
      t.numElementsL1 0xFFFFFF t.numElementsL1
    let fb := PoolBucket.FreeInterval b rl.1 pHead rl.2
    ({ t with numElementsL1 := t.numElementsL1 - c }, fb.1, fb.2,
     [Ev.fi pHead rl.2])

/-- The slot offset `ReleaseToCache` computes:
`(uint32_t)(p - pBucketData)` with unsigned wraparound (line 574). -/
def rtcOff (t : TlsPoolBucket) (p : Nat) : Nat :=
  (p + 2 ^ 64 - t.pBucketData % 2 ^ 64) % 2 ^ 64 % 2 ^ 32

/-- `Allocator::ReleaseToCache<useCacheL0>` (lines 562-599): refuse when
`maxElementsCount == 0`; else append the slot offset to L0 if enabled and
not full, else to L1 if not full, else flush `numElementsL1 >> 1` trailing
L1 entries to the bucket and then append to L1. -/
def ReleaseToCache (useCacheL0 : Bool) (t : TlsPoolBucket) (b : PoolBucket)
    (mem : Mem) (p : Nat) : Bool × TlsPoolBucket × PoolBucket × Mem × List Ev :=
  if t.maxElementsCount = 0 then (false, t, b, mem, [Ev.cachePush p false])
  else if useCacheL0 ∧ t.numElementsL0 < SMM_MAX_CACHE_ITEMS_COUNT then
    (true,
     { t with storageL0 := updf t.storageL0 t.numElementsL0 (rtcOff t p),
              numElementsL0 := t.numElementsL0 + 1 }, b, mem,
     [Ev.cachePush p true])
  else if t.numElementsL1 < t.maxElementsCount then
    (true,
     { t with storageL1 := updf t.storageL1 t.numElementsL1 (rtcOff t p),
              numElementsL1 := t.numElementsL1 + 1 }, b, mem,
     [Ev.cachePush p true])
  else
    (true,
     { (ReturnL1CacheToMaster t b mem (t.numElementsL1 >>> 1)).1 with
        storageL1 := updf
          (ReturnL1CacheToMaster t b mem (t.numElementsL1 >>> 1)).1.storageL1
          (ReturnL1CacheToMaster t b mem (t.numElementsL1 >>> 1)).1.numElementsL1
          (rtcOff t p),
        numElementsL1 :=
          (ReturnL1CacheToMaster t b mem (t.numElementsL1 >>> 1)).1.numElementsL1
            + 1 },
     (ReturnL1CacheToMaster t b mem (t.numElementsL1 >>> 1)).2.1,
     (ReturnL1CacheToMaster t b mem (t.numElementsL1 >>> 1)).2.2.1,
     (ReturnL1CacheToMaster t b mem (t.numElementsL1 >>> 1)).2.2.2 ++
       [Ev.cachePush p true])

/-- The bucket-advance loop of `Allocator::Allocate` (lines 312-330): try
`buckets[i].Alloc()` for `i` from the starting index up to
`bucketsCount`, returning the first non-null pop.  `fuel` is
structural-recursion fuel; any `fuel ≥ n - i` yields the loop's
behaviour. -/
def bucketLoop (n : Nat) (st : AllocState) (i fuel : Nat) : OpRes :=
  match fuel with
  | 0 => ⟨0, st, []⟩
  | fuel + 1 =>
    if i < n then
      let r := PoolBucket.Alloc (st.buckets i) st.mem
      let st1 := { st with buckets := updf st.buckets i r.2 }
      if r.1 ≠ 0 then ⟨r.1, st1, [Ev.bucketPop i r.1]⟩
      else
        let rest := bucketLoop n st1 (i + 1) fuel
        ⟨rest.ptr, rest.st, Ev.bucketPop i 0 :: rest.evs⟩
    else ⟨0, st, []⟩

/-- The effective request size of `Allocator::Allocate` (line 296):
`(_bytesCount < alignment) ? alignment : _bytesCount`, i.e.
`max bytesCount alignment`. -/
def effSize (bytesCount alignment : Nat) : Nat :=
  if bytesCount < alignment then alignment else bytesCount

/-- The starting bucket index of `Allocator::Allocate` (line 297):
`(effective - 1) >> 4`. -/
def startIndex (bytesCount alignment : Nat) : Nat :=
  (effSize bytesCount alignment - 1) >>> 4

/-- The thread-cache attempt of `Allocator::Allocate` (lines 299-310),
performed only when the starting index names an existing bucket. -/
def cachePopStep (st : AllocState) (bucketIndex : Nat) :
    Nat × AllocState × List Ev :=
  if bucketIndex < st.bucketsCount then
    ((AllocFromCache (st.tls bucketIndex)).1,
     { st with
        tls := updf st.tls bucketIndex (AllocFromCache (st.tls bucketIndex)).2 },
     [Ev.cachePop bucketIndex (AllocFromCache (st.tls bucketIndex)).1])
  else (0, st, [])

/-- `Allocator::Allocate` (lines 289-338) = `Allocator::Alloc` (statistics
compiled out): zero-size sentinel, effective size `effSize`, starting
bucket `startIndex`, thread-cache attempt at the starting index only,
bucket-advance loop, then the generic fallback with the original
arguments. -/
def Allocate (g : GenModel) (st : AllocState) (bytesCount alignment : Nat) : OpRes :=
  if bytesCount = 0 then ⟨alignment, st, []⟩
  else if (cachePopStep st (startIndex bytesCount alignment)).1 ≠ 0 then
    ⟨(cachePopStep st (startIndex bytesCount alignment)).1,
     (cachePopStep st (startIndex bytesCount alignment)).2.1,
     (cachePopStep st (startIndex bytesCount alignment)).2.2⟩
  else if (bucketLoop st.bucketsCount
      (cachePopStep st (startIndex bytesCount alignment)).2.1
      (startIndex bytesCount alignment) st.bucketsCount).ptr ≠ 0 then
    ⟨(bucketLoop st.bucketsCount
        (cachePopStep st (startIndex bytesCount alignment)).2.1
        (startIndex bytesCount alignment) st.bucketsCount).ptr,
     (bucketLoop st.bucketsCount
        (cachePopStep st (startIndex bytesCount alignment)).2.1
        (startIndex bytesCount alignment) st.bucketsCount).st,
     (cachePopStep st (startIndex bytesCount alignment)).2.2 ++
       (bucketLoop st.bucketsCount
          (cachePopStep st (startIndex bytesCount alignment)).2.1
          (startIndex bytesCount alignment) st.bucketsCount).evs⟩
  else
    ⟨(g.alloc (bucketLoop st.bucketsCount
        (cachePopStep st (startIndex bytesCount alignment)).2.1
        (startIndex bytesCount alignment) st.bucketsCount).st.gen
        bytesCount alignment).1,
     { (bucketLoop st.bucketsCount
          (cachePopStep st (startIndex bytesCount alignment)).2.1
          (startIndex bytesCount alignment) st.bucketsCount).st with
        gen := (g.alloc (bucketLoop st.bucketsCount
          (cachePopStep st (startIndex bytesCount alignment)).2.1
          (startIndex bytesCount alignment) st.bucketsCount).st.gen
          bytesCount alignment).2 },
     (cachePopStep st (startIndex bytesCount alignment)).2.2 ++
       (bucketLoop st.bucketsCount
          (cachePopStep st (startIndex bytesCount alignment)).2.1
          (startIndex bytesCount alignment) st.bucketsCount).evs ++
       [Ev.genAllocEv bytesCount alignment
         (g.alloc (bucketLoop st.bucketsCount
            (cachePopStep st (startIndex bytesCount alignment)).2.1
            (startIndex bytesCount alignment) st.bucketsCount).st.gen
            bytesCount alignment).1]⟩

/-- `Allocator::Free` (lines 350-371): ignore unreadable (sentinel/null)
pointers; for arena pointers try the thread-cache push and fall back to
`FreeInterval(p, p)` on refusal; delegate everything else to the generic
allocator.  Total: no error is ever reported. -/
def Free (g : GenModel) (st : AllocState) (p : Nat) : AllocState × List Ev :=
  if ¬IsReadable p then (st, [])
  else if FindBucket st p < st.bucketsCount then
    if (ReleaseToCache true (st.tls (FindBucket st p))
        (st.buckets (FindBucket st p)) st.mem p).1 then
      ({ st with
          tls := updf st.tls (FindBucket st p)
            (ReleaseToCache true (st.tls (FindBucket st p))
              (st.buckets (FindBucket st p)) st.mem p).2.1,
          buckets := updf st.buckets (FindBucket st p)
            (ReleaseToCache true (st.tls (FindBucket st p))
              (st.buckets (FindBucket st p)) st.mem p).2.2.1,
          mem := (ReleaseToCache true (st.tls (FindBucket st p))
            (st.buckets (FindBucket st p)) st.mem p).2.2.2.1 },
       (ReleaseToCache true (st.tls (FindBucket st p))
         (st.buckets (FindBucket st p)) st.mem p).2.2.2.2)
    else
      ({ st with
          buckets := updf st.buckets (FindBucket st p)
            (PoolBucket.FreeInterval (st.buckets (FindBucket st p))
              st.mem p p).1,
          mem := (PoolBucket.FreeInterval (st.buckets (FindBucket st p))
            st.mem p p).2 },
       (ReleaseToCache true (st.tls (FindBucket st p))
         (st.buckets (FindBucket st p)) st.mem p).2.2.2.2 ++ [Ev.fi p p])
  else ({ st with gen := g.free st.gen p }, [Ev.genFreeEv p])

/-- The state after the growth-path copy of `Allocator::Realloc` (lines
388-391): the fresh allocation's state with `memmove(p2, p, elementSize)`
applied (the copy is guarded by `IsReadable(p)` only — not by a null check
of `p2`). -/
def reallocCopied (g : GenModel) (st : AllocState)
    (p bytesCount alignment elementSize : Nat) : AllocState × List Ev :=
  if IsReadable p then
    ({ (Allocate g st bytesCount alignment).st with
        mem := memmoveM (Allocate g st bytesCount alignment).st.mem
          (Allocate g st bytesCount alignment).ptr p elementSize },
     [Ev.memmoveEv (Allocate g st bytesCount alignment).ptr p elementSize])
  else ((Allocate g st bytesCount alignment).st, [])

/-- `Allocator::Realloc` (lines 373-409). -/
def Realloc (g : GenModel) (st : AllocState) (p bytesCount alignment : Nat) : OpRes :=
  if p = 0 then Allocate g st bytesCount alignment
  else if FindBucket st p < st.bucketsCount then
    if bytesCount ≤ GetBucketElementSize (FindBucket st p) then
      ⟨p, (Free g st p).1, (Free g st p).2⟩
    else
      ⟨(Allocate g st bytesCount alignment).ptr,
       (Free g (reallocCopied g st p bytesCount alignment
          (GetBucketElementSize (FindBucket st p))).1 p).1,
       (Allocate g st bytesCount alignment).evs ++
         (reallocCopied g st p bytesCount alignment
            (GetBucketElementSize (FindBucket st p))).2 ++
         (Free g (reallocCopied g st p bytesCount alignment
            (GetBucketElementSize (FindBucket st p))).1 p).2⟩
  else if bytesCount = 0 then
    if IsReadable p then
      ⟨alignment, { st with gen := g.free st.gen p }, [Ev.genFreeEv p]⟩
    else ⟨alignment, st, []⟩
  else if ¬IsReadable p then
    ⟨(g.alloc st.gen bytesCount alignment).1,
     { st with gen := (g.alloc st.gen bytesCount alignment).2 },
     [Ev.genAllocEv bytesCount alignment (g.alloc st.gen bytesCount alignment).1]⟩
  else
    ⟨(g.realloc st.gen p bytesCount alignment).1,
     { st with gen := (g.realloc st.gen p bytesCount alignment).2 },
     [Ev.genReallocEv p bytesCount alignment
       (g.realloc st.gen p bytesCount alignment).1]⟩

/-- `Allocator::GetUsableSize` (lines 411-424). -/
def GetUsableSize (g : GenModel) (st : AllocState) (p : Nat) : Nat :=
  if ¬IsReadable p then 0
  else if FindBucket st p < st.bucketsCount then
    GetBucketElementSize (FindBucket st p)
  else g.usable st.gen p

/-- `Allocator::GetBucketIndex` (lines 426-436): `-1` when not arena-owned. -/
def GetBucketIndex (st : AllocState) (p : Nat) : Int :=
  if IsMyAlloc st p = false then -1
  else if st.bucketsCount ≤ FindBucket st p then -1
  else (FindBucket st p : Int)

/-- Modelled from the spec: `PoolBucket::Create` and `Allocator::Init` are
implemented in `smmalloc.cpp`, which is not under `src/`.  Per §4.1
(Initialization) the arena memory of bucket `i` holds the initial freelist
links: slot `j` (at byte offset `j * S_i` of the bucket's sub-region)
stores a tagged index whose offset names slot `j + 1`, the last slot
stores the `Invalid` sentinel, and bytes outside the link words are zero. -/
def initMem (base bucketsCnt size : Nat) : Mem := fun x =>
  if base ≤ x ∧ x < base + bucketsCnt * size then
    let r := x - base
    let i := r / size
    let off := r % size
    let S := GetBucketElementSize i
    let N := size / S
    let j := off / S
    let byteIdx := off % S
    if j < N ∧ byteIdx < 8 then
      let link : TaggedIndex :=
        if j + 1 < N then ⟨0, (j + 1) * S⟩ else TaggedIndex.invalid
      tiToU link / 256 ^ byteIdx % 256
    else 0
  else 0

/-- Modelled from the spec: bucket `i` after `Allocator::Init` /
`PoolBucket::Create` (missing `smmalloc.cpp`): sub-region base
`arena + i * size`, head naming slot 0 (tag 0) unless the bucket has no
slots, `globalTag = 0`. -/
def mkBucket (base size i : Nat) : PoolBucket :=
  { head := if size / GetBucketElementSize i = 0 then TaggedIndex.invalid
            else ⟨0, 0⟩,
    globalTag := 0,
    pData := base + i * size,
    pBufferEnd := base + i * size +
      size / GetBucketElementSize i * GetBucketElementSize i }

/-- Modelled from the spec: a zero-initialized `TlsPoolBucket` record, the
state `GetTlsBucket` (missing `smmalloc.cpp`) yields for a thread that has
not created a cache: `maxElementsCount = 0`, so every push is refused and
every pop misses (§5: "threads without a cache go directly to bucket
freelists"). -/
def emptyTls : TlsPoolBucket :=
  { pBucketData := 0, storageL0 := fun _ => 0, storageL1 := fun _ => 0,
    maxElementsCount := 0, numElementsL1 := 0, numElementsL0 := 0 }

/-- Modelled from the spec: the allocator state right after
`Allocator::Init(bucketsCnt, size)` (missing `smmalloc.cpp`) with arena
base `base`: arena of `bucketsCnt * size` bytes, every bucket's freelist
full, no thread caches. -/
def mkState (base bucketsCnt size : Nat) : AllocState :=
  { bucketsCount := bucketsCnt,
    bucketSizeInBytes := size,
    pBuffer := base,
    pBufferEnd := base + bucketsCnt * size,
    buckets := fun i => mkBucket base size i,
    tls := fun _ => emptyTls,
    mem := initMem base bucketsCnt size,
    gen := 0 }

/-- A generic-allocator model that is always out of memory: every `alloc`
returns null. -/
def gNull : GenModel :=
  { alloc := fun s _ _ => (0, s), free := fun s _ => s,
    realloc := fun s _ _ _ => (0, s), usable := fun _ _ => 0 }

/-- An allocator state with one bucket of 16 bytes whose freelist is
exhausted (`head = Invalid`): `Allocate` can only fall through to the
generic allocator.  Byte 0 of the slot at the arena base holds 7. -/
def stOOM : AllocState :=
  { bucketsCount := 1, bucketSizeInBytes := 16,
    pBuffer := 65536, pBufferEnd := 65552,
    buckets := fun _ =>
      { head := TaggedIndex.invalid, globalTag := 0,
        pData := 65536, pBufferEnd := 65552 },
    tls := fun _ => emptyTls,
    mem := fun x => if x = 65536 then 7 else 0,
    gen := 0 }

/-- Occupancy invariant of a thread-cache record: L0 within its fixed
capacity, L1 within `maxElementsCount`. -/
def CacheInv (t : TlsPoolBucket) : Prop :=
  t.numElementsL0 ≤ SMM_MAX_CACHE_ITEMS_COUNT ∧
  t.numElementsL1 ≤ t.maxElementsCount

instance (t : TlsPoolBucket) : Decidable (CacheInv t) :=
  inferInstanceAs (Decidable (_ ∧ _))

/-- A thread-cache record with `maxElementsCount = 1` whose L0 (7 entries)
and L1 (1 entry) are both full. -/
def tFull : TlsPoolBucket :=
  { pBucketData := 100, storageL0 := fun _ => 0, storageL1 := fun _ => 16,
    maxElementsCount := 1, numElementsL1 := 1, numElementsL0 := 7 }

/-- A bucket to accompany `tFull`. -/
def bFull : PoolBucket :=
  { head := TaggedIndex.invalid, globalTag := 0, pData := 100,
    pBufferEnd := 1000 }

/-- Recognizer for `FreeInterval` call events. -/
def isFi : Ev → Bool
  | Ev.fi _ _ => true
  | _ => false

/-- Well-formedness of an allocator state, as established by
`Allocator::Init` (§4.3 Construction): positive bucket size, at most
`SMM_MAX_BUCKET_COUNT` buckets, a readable arena base, arena bounds
consistent and within the address space, bucket sizes and offsets
representable in the 32-bit `TaggedIndex::offset` field, each bucket's
sub-region base wired to the arena, and every non-sentinel freelist head
naming a slot that fits inside the bucket's sub-region. -/
def WF (st : AllocState) : Prop :=
  0 < st.bucketSizeInBytes ∧
  st.bucketsCount ≤ 64 ∧
  MaxValidAlignment < st.pBuffer ∧
  st.pBufferEnd = st.pBuffer + st.bucketsCount * st.bucketSizeInBytes ∧
  st.pBufferEnd ≤ 2 ^ 64 ∧
  st.bucketSizeInBytes ≤ 2 ^ 32 ∧
  (∀ i, i < st.bucketsCount →
    (st.buckets i).pData = st.pBuffer + i * st.bucketSizeInBytes) ∧
  (∀ i, i < st.bucketsCount → (st.buckets i).head ≠ TaggedIndex.invalid →
    (st.buckets i).head.offset + GetBucketElementSize i ≤ st.bucketSizeInBytes)

/-- Well-formedness of the thread-cache records: any record that is
initialized or non-empty points at its bucket's sub-region, and every
buffered offset names a slot that fits inside that sub-region. -/
def CachesWF (st : AllocState) : Prop :=
  ∀ i, i < st.bucketsCount →
    (((st.tls i).maxElementsCount ≠ 0 ∨ (st.tls i).numElementsL0 ≠ 0 ∨
        (st.tls i).numElementsL1 ≠ 0) →
      (st.tls i).pBucketData = st.pBuffer + i * st.bucketSizeInBytes) ∧
    (∀ j, j < (st.tls i).numElementsL0 →
      (st.tls i).storageL0 j + GetBucketElementSize i ≤ st.bucketSizeInBytes) ∧
    (∀ j, j < (st.tls i).numElementsL1 →
      (st.tls i).storageL1 j + GetBucketElementSize i ≤ st.bucketSizeInBytes)

instance (st : AllocState) : Decidable (WF st) :=
  inferInstanceAs (Decidable (_ ∧ _))

instance (st : AllocState) : Decidable (CachesWF st) :=
  inferInstanceAs (Decidable (∀ i, i < st.bucketsCount → _ ∧ _))

/-- The head tags a bucket's freelist exposes across a sequence of
`FreeInterval` pushes (each entry of `pushes` is one `(pHead, pTail)`
chain, covering both single-slot frees and batched cache flushes). -/
def freeIntervalSeq (b : PoolBucket) (mem : Mem) : List (Nat × Nat) → List Nat
  | [] => []
  | ht :: rest =>
    (PoolBucket.FreeInterval b mem ht.1 ht.2).1.head.tag ::
      freeIntervalSeq (PoolBucket.FreeInterval b mem ht.1 ht.2).1
        (PoolBucket.FreeInterval b mem ht.1 ht.2).2 rest

/-- A cache record for the C6 witness: L0 full (7 entries), L1 full with
2 of 2 entries at offsets 0 and 16. -/
def tC6 : TlsPoolBucket :=
  { pBucketData := 65536, storageL0 := fun _ => 0,
    storageL1 := fun j => 16 * j,
    maxElementsCount := 2, numElementsL1 := 2, numElementsL0 := 7 }

/-- A bucket for the C6 witness. -/
def bC6 : PoolBucket :=
  { head := TaggedIndex.invalid, globalTag := 5, pData := 65536,
    pBufferEnd := 69632 }

lemma WF.size_pos {st : AllocState} (h : WF st) : 0 < st.bucketSizeInBytes := h.1

lemma WF.base_big {st : AllocState} (h : WF st) : MaxValidAlignment < st.pBuffer :=
  h.2.2.1

lemma WF.bounds {st : AllocState} (h : WF st) :
    st.pBufferEnd = st.pBuffer + st.bucketsCount * st.bucketSizeInBytes :=
  h.2.2.2.1

lemma WF.end_le {st : AllocState} (h : WF st) : st.pBufferEnd ≤ 2 ^ 64 :=
  h.2.2.2.2.1

lemma WF.size32 {st : AllocState} (h : WF st) : st.bucketSizeInBytes ≤ 2 ^ 32 :=
  h.2.2.2.2.2.1

lemma WF.pData {st : AllocState} (h : WF st) :
    ∀ i, i < st.bucketsCount →
      (st.buckets i).pData = st.pBuffer + i * st.bucketSizeInBytes :=
  h.2.2.2.2.2.2.1

lemma WF.headFit {st : AllocState} (h : WF st) :
    ∀ i, i < st.bucketsCount → (st.buckets i).head ≠ TaggedIndex.invalid →
      (st.buckets i).head.offset + GetBucketElementSize i ≤ st.bucketSizeInBytes :=
  h.2.2.2.2.2.2.2

/-- With at least one bucket, the arena base is a genuine address
(below `2^64`). -/
lemma WF.base_lt {st : AllocState} (h : WF st) (hb : 0 < st.bucketsCount) :
    st.pBuffer < 2 ^ 64 := by
  have h1 : 0 < st.bucketsCount * st.bucketSizeInBytes :=
    Nat.mul_pos hb h.size_pos
  have h2 := h.bounds
  have h3 := h.end_le
  omega

/-- `FindBucket` on an address inside bucket `i`'s sub-region yields `i`. -/
lemma findBucket_arena (st : AllocState) (hwf : WF st) (i off : Nat)
    (hi : i < st.bucketsCount) (hoff : off < st.bucketSizeInBytes) :
    FindBucket st (st.pBuffer + i * st.bucketSizeInBytes + off) = i := by
  have hsize := hwf.size_pos
  have hbase := hwf.base_lt (by omega)
  have hBsz : st.bucketsCount * st.bucketSizeInBytes ≤ 2 ^ 64 := by
    have := hwf.bounds; have := hwf.end_le; omega
  have hlt : i * st.bucketSizeInBytes + off <
      st.bucketsCount * st.bucketSizeInBytes := by
    have h1 : i * st.bucketSizeInBytes + off <
        (i + 1) * st.bucketSizeInBytes := by
      have : (i + 1) * st.bucketSizeInBytes =
          i * st.bucketSizeInBytes + st.bucketSizeInBytes := by ring
      omega
    have h2 : (i + 1) * st.bucketSizeInBytes ≤
        st.bucketsCount * st.bucketSizeInBytes :=
      Nat.mul_le_mul_right _ (by omega)
    omega
  unfold FindBucket
  rw [Nat.mod_eq_of_lt hbase]
  have e1 : st.pBuffer + i * st.bucketSizeInBytes + off + 2 ^ 64 - st.pBuffer =
      i * st.bucketSizeInBytes + off + 2 ^ 64 := by omega
  rw [e1, Nat.add_mod_right, Nat.mod_eq_of_lt (by omega)]
  rw [Nat.add_comm (i * st.bucketSizeInBytes) off, Nat.mul_comm,
    Nat.add_mul_div_left _ _ hsize, Nat.div_eq_of_lt hoff, Nat.zero_add]

/-- `FindBucket` on an address outside the arena (null, a small sentinel,
below the base, or at/after the end) is at least `bucketsCount`, so every
dispatcher treats such pointers as not arena-owned. -/
lemma findBucket_not_mine (st : AllocState) (hwf : WF st) (p : Nat)
    (hp64 : p < 2 ^ 64) (h : p < st.pBuffer ∨ st.pBufferEnd ≤ p) :
    st.bucketsCount ≤ FindBucket st p := by
  have hsize := hwf.size_pos
  have hbd := hwf.bounds
  have hle := hwf.end_le
  rcases Nat.eq_zero_or_pos st.bucketsCount with h0 | h0
  · omega
  have hbase := hwf.base_lt h0
  unfold FindBucket
  rw [Nat.mod_eq_of_lt hbase]
  rw [Nat.le_div_iff_mul_le hsize]
  rcases h with h | h
  · -- p below the base: the unsigned subtraction wraps to a huge index
    have e1 : p + 2 ^ 64 - st.pBuffer < 2 ^ 64 := by omega
    rw [Nat.mod_eq_of_lt e1]
    omega
  · -- p at or beyond the arena end
    have e1 : p + 2 ^ 64 - st.pBuffer = p - st.pBuffer + 2 ^ 64 := by omega
    rw [e1, Nat.add_mod_right, Nat.mod_eq_of_lt (by omega)]
    omega

/-- The possible event lists of a `ReleaseToCache` call: a refused push, a
plain accepted push, or an accepted push preceded by exactly one
`FreeInterval` flush. -/
lemma releaseToCache_evs (useL0 : Bool) (t : TlsPoolBucket) (b : PoolBucket)
    (mem : Mem) (p : Nat) :
    (ReleaseToCache useL0 t b mem p).2.2.2.2 = [Ev.cachePush p false] ∨
    (ReleaseToCache useL0 t b mem p).2.2.2.2 = [Ev.cachePush p true] ∨
    ∃ h tl, (ReleaseToCache useL0 t b mem p).2.2.2.2 =
      [Ev.fi h tl, Ev.cachePush p true] := by
  unfold ReleaseToCache
  split
  · exact Or.inl rfl
  split
  · exact Or.inr (Or.inl rfl)
  split
  · exact Or.inr (Or.inl rfl)
  unfold ReturnL1CacheToMaster
  split
  · exact Or.inr (Or.inl rfl)
  split
  · exact Or.inr (Or.inl rfl)
  exact Or.inr (Or.inr ⟨_, _, rfl⟩)

/-- `ReleaseToCache` succeeds exactly when the cache is initialized
(`maxElementsCount ≠ 0`). -/
lemma releaseToCache_ok (useL0 : Bool) (t : TlsPoolBucket) (b : PoolBucket)
    (mem : Mem) (p : Nat) :
    (ReleaseToCache useL0 t b mem p).1 = (t.maxElementsCount ≠ 0 : Bool) := by
  unfold ReleaseToCache
  split
  · simp_all
  split
  · simp_all
  split
  · simp_all
  simp_all

/-- `ReleaseToCache` on an initialized cache: the push is accepted and its
event list is either the bare push or one `FreeInterval` flush followed by
the push. -/
lemma releaseToCache_evs_ok (useL0 : Bool) (t : TlsPoolBucket)
    (b : PoolBucket) (mem : Mem) (p : Nat) (hmax : t.maxElementsCount ≠ 0) :
    (ReleaseToCache useL0 t b mem p).2.2.2.2 = [Ev.cachePush p true] ∨
    ∃ h tl, (ReleaseToCache useL0 t b mem p).2.2.2.2 =
      [Ev.fi h tl, Ev.cachePush p true] := by
  unfold ReleaseToCache
  rw [if_neg hmax]
  split
  · exact Or.inl rfl
  split
  · exact Or.inl rfl
  unfold ReturnL1CacheToMaster
  split
  · exact Or.inl rfl
  split
  · exact Or.inl rfl
  exact Or.inr ⟨_, _, rfl⟩

/-- `Allocator::Free` on an arena-owned pointer: the body dispatches on the
thread-cache push of bucket `i = FindBucket(p)`. -/
lemma free_arena (g : GenModel) (st : AllocState) (p i : Nat)
    (hi : i < st.bucketsCount) (hfb : FindBucket st p = i)
    (hread : IsReadable p) :
    Free g st p =
      (if (ReleaseToCache true (st.tls i) (st.buckets i) st.mem p).1 then
        ({ st with
            tls := updf st.tls i
              (ReleaseToCache true (st.tls i) (st.buckets i) st.mem p).2.1,
            buckets := updf st.buckets i
              (ReleaseToCache true (st.tls i) (st.buckets i) st.mem p).2.2.1,
            mem :=
              (ReleaseToCache true (st.tls i) (st.buckets i) st.mem p).2.2.2.1 },
          (ReleaseToCache true (st.tls i) (st.buckets i) st.mem p).2.2.2.2)
      else
        ({ st with
            buckets := updf st.buckets i
              (PoolBucket.FreeInterval (st.buckets i) st.mem p p).1,
            mem := (PoolBucket.FreeInterval (st.buckets i) st.mem p p).2 },
          (ReleaseToCache true (st.tls i) (st.buckets i) st.mem p).2.2.2.2 ++
            [Ev.fi p p])) := by
  unfold Free
  rw [if_neg (not_not_intro hread), hfb, if_pos hi]

/-- C5: on an allocator created with `B = 8`, `bucketSizeInBytes = 4096`
(arena base 65536), `alloc(24, 8)` returns the first slot of bucket 1
(`bucket_of = 1`, `usable_size = 32`, `is_mine = true`), and after
`free(p)` the immediately following `alloc(24, 8)` returns the same
pointer again (LIFO reuse through the freelist; this single-threaded run
has no thread cache, so the cache refuses and the slot goes through
`free_interval`). -/
theorem c5_scenario_lifo :
    (let r1 := Allocate gNull (mkState 65536 8 4096) 24 8
     r1.ptr = 69632
     ∧ GetBucketIndex r1.st r1.ptr = 1
     ∧ GetUsableSize gNull r1.st r1.ptr = 32
     ∧ IsMyAlloc r1.st r1.ptr = true
     ∧ (let r2 := Free gNull r1.st r1.ptr
        let r3 := Allocate gNull r2.1 24 8
        r3.ptr = r1.ptr)) := by decide

/-- C4: for a power-of-two alignment `a ≤ MaxValidAlignment`,
`alloc(0, a)` returns the integer value `a` itself (non-null) without
touching any state; `free` of that value is a no-op; `usable_size` of
that value is 0. -/
theorem c4_zero_size_sentinel (g : GenModel) (st : AllocState) (a : Nat)
    (hpow : ∃ k, a = 2 ^ k) (hmax : a ≤ MaxValidAlignment) :
    Allocate g st 0 a = ⟨a, st, []⟩ ∧ a ≠ 0 ∧
    Free g st a = (st, []) ∧ GetUsableSize g st a = 0 := by
  obtain ⟨k, rfl⟩ := hpow
  refine ⟨by simp [Allocate], Nat.pos_iff_ne_zero.mp (Nat.pos_pow_of_pos k (by norm_num)), ?_, ?_⟩
  · simp [Free, IsReadable]
    omega
  · simp [GetUsableSize, IsReadable]
    omega

/-- Witness for C4 at `a = 64` on a concrete allocator state. -/
theorem c4_zero_size_sentinel_witness :
    (∃ k, (64 : Nat) = 2 ^ k) ∧ (64 : Nat) ≤ MaxValidAlignment ∧
    (Allocate gNull (mkState 65536 8 4096) 0 64 =
      ⟨64, mkState 65536 8 4096, []⟩ ∧ (64 : Nat) ≠ 0 ∧
     Free gNull (mkState 65536 8 4096) 64 = (mkState 65536 8 4096, []) ∧
     GetUsableSize gNull (mkState 65536 8 4096) 64 = 0) :=
  ⟨⟨6, rfl⟩, by decide,
   c4_zero_size_sentinel gNull (mkState 65536 8 4096) 64 ⟨6, rfl⟩ (by decide)⟩

/-- C8 (code bug): `realloc` of the arena-owned pointer 65536 (bucket 0,
element size 16) to 100 bytes when every pool is exhausted and the
generic fallback is out of memory.  The call does return null, but it
first executes `memmove(nullptr, p, 16)` — the source guards the copy
with `IsReadable(p)` instead of checking the new pointer — so the bytes
at addresses `0..15` are overwritten through the null result (address 0
receives the 7 stored at `p`). -/
theorem c8_realloc_oom_writes_through_null :
    (let r := Realloc gNull stOOM 65536 100 16
     r.ptr = 0
     ∧ Ev.memmoveEv 0 65536 16 ∈ r.evs
     ∧ Ev.genAllocEv 100 16 0 ∈ r.evs
     ∧ stOOM.mem 0 = 0
     ∧ r.st.mem 0 = 7) := by decide

/-- C10 counterexample: on the cache record `tFull`
(`maxElementsCount = 1`, L0 and L1 full) the occupancy invariant holds
before a push, yet after `ReleaseToCache` the L1 counter is 2 >
`maxElementsCount` — the flush-half step returns `1 >> 1 = 0` slots, so
the subsequent append overflows L1. -/
theorem c10_counterexample_push_overflows :
    CacheInv tFull ∧
    ¬CacheInv (ReleaseToCache true tFull bFull (fun _ => 0) 116).2.1 := by
  decide

/-- C6 counterexample: the same push on `tFull` takes the
"L0 full, L1 full" branch (`maxElementsCount > 0`) and succeeds, yet
performs no `free_interval` call at all — the claim's "exactly
`⌊numElementsL1 / 2⌋` trailing entries returned via a single
`free_interval` call" fails because `⌊1 / 2⌋ = 0` makes
`ReturnL1CacheToMaster` return before calling `FreeInterval`. -/
theorem c6_counterexample_no_free_interval :
    (let r := ReleaseToCache true tFull bFull (fun _ => 0) 116
     0 < tFull.maxElementsCount
     ∧ ¬tFull.numElementsL0 < SMM_MAX_CACHE_ITEMS_COUNT
     ∧ ¬tFull.numElementsL1 < tFull.maxElementsCount
     ∧ r.1 = true
     ∧ (r.2.2.2.2.filter isFi) = []) := by decide

/-- C7: `usable_size` returns 0 on every small-pointer sentinel
(`p ≤ MaxValidAlignment`), the element size `16 * (i + 1)` on every
pointer inside bucket `i`'s arena sub-region, and the generic fallback's
answer on every other pointer. -/
theorem c7_usable_size_cases (g : GenModel) (st : AllocState) (p : Nat)
    (hwf : WF st) (hp64 : p < 2 ^ 64) :
    (p ≤ MaxValidAlignment → GetUsableSize g st p = 0)
    ∧ (∀ i off, i < st.bucketsCount → off < st.bucketSizeInBytes →
        p = st.pBuffer + i * st.bucketSizeInBytes + off →
        GetUsableSize g st p = 16 * (i + 1))
    ∧ ((p < st.pBuffer ∨ st.pBufferEnd ≤ p) → MaxValidAlignment < p →
        GetUsableSize g st p = g.usable st.gen p) := by
  refine ⟨?_, ?_, ?_⟩
  · intro h
    unfold GetUsableSize
    rw [if_pos (show ¬IsReadable p from Nat.not_lt.mpr h)]
  · intro i off hi hoff hp
    have hfb : FindBucket st p = i := by
      rw [hp]; exact findBucket_arena st hwf i off hi hoff
    have hread : IsReadable p := by
      have := hwf.base_big
      unfold IsReadable
      omega
    unfold GetUsableSize
    rw [if_neg (not_not_intro hread), hfb, if_pos hi]
    unfold GetBucketElementSize
    ring
  · intro h hread
    have hge := findBucket_not_mine st hwf p hp64 h
    unfold GetUsableSize
    rw [if_neg (show ¬¬IsReadable p from not_not_intro hread),
      if_neg (Nat.not_lt.mpr hge)]

/-- Witness for C7 on the concrete 8-bucket allocator at the pointer
`69632` (bucket 1) and outside pointers. -/
theorem c7_usable_size_cases_witness :
    WF (mkState 65536 8 4096) ∧ (69632 : Nat) < 2 ^ 64 ∧
    GetUsableSize gNull (mkState 65536 8 4096) 69632 = 16 * (1 + 1) :=
  ⟨by decide, by decide,
   (c7_usable_size_cases gNull (mkState 65536 8 4096) 69632 (by decide)
      (by decide)).2.1 1 0 (by decide) (by decide) (by decide)⟩

/-- C3: `free` ignores every pointer value at most `MaxValidAlignment`
(null included); on an arena pointer of bucket `i` it never calls the
generic allocator and either pushes the slot into the calling thread's
cache (whenever the cache is initialized) or, when the cache refuses,
prepends the slot to bucket `i`'s freelist via `FreeInterval(p, p)` —
the new head names `p`'s offset and consumes one tag; every other
readable pointer is delegated to the generic fallback's `free`.  `Free`
is a total function into states: no error is ever reported. -/
theorem c3_free_dispatch (g : GenModel) (st : AllocState) (p : Nat)
    (hwf : WF st) (hp64 : p < 2 ^ 64) :
    (p ≤ MaxValidAlignment → Free g st p = (st, []))
    ∧ (∀ i off, i < st.bucketsCount → off < st.bucketSizeInBytes →
        p = st.pBuffer + i * st.bucketSizeInBytes + off →
        (∀ q, Ev.genFreeEv q ∉ (Free g st p).2)
        ∧ ((st.tls i).maxElementsCount = 0 →
            (Free g st p).2 = [Ev.cachePush p false, Ev.fi p p]
            ∧ ((Free g st p).1.buckets i).head =
                ⟨(st.buckets i).globalTag % 2 ^ 32, off⟩
            ∧ ((Free g st p).1.buckets i).globalTag =
                ((st.buckets i).globalTag + 1) % 2 ^ 32)
        ∧ ((st.tls i).maxElementsCount ≠ 0 →
            Ev.cachePush p true ∈ (Free g st p).2))
    ∧ ((p < st.pBuffer ∨ st.pBufferEnd ≤ p) → MaxValidAlignment < p →
        Free g st p = ({ st with gen := g.free st.gen p }, [Ev.genFreeEv p])) := by
  refine ⟨?_, ?_, ?_⟩
  · intro h
    unfold Free
    rw [if_pos (show ¬IsReadable p from Nat.not_lt.mpr h)]
  · intro i off hi hoff hp
    have hfb : FindBucket st p = i := by
      rw [hp]; exact findBucket_arena st hwf i off hi hoff
    have hread : IsReadable p := by
      have := hwf.base_big
      unfold IsReadable
      omega
    rw [free_arena g st p i hi hfb hread]
    refine ⟨?_, ?_, ?_⟩
    · intro q
      rcases releaseToCache_evs true (st.tls i) (st.buckets i) st.mem p with
        he | he | ⟨h1, t1, he⟩ <;> split <;> simp [he]
    · intro hmax0
      have hok : (ReleaseToCache true (st.tls i) (st.buckets i) st.mem p).1 =
          false := by
        rw [releaseToCache_ok]; simp [hmax0]
      have hrc : ReleaseToCache true (st.tls i) (st.buckets i) st.mem p =
          (false, st.tls i, st.buckets i, st.mem, [Ev.cachePush p false]) := by
        unfold ReleaseToCache
        rw [if_pos hmax0]
      rw [hrc]
      have hpd : (st.buckets i).pData = st.pBuffer + i * st.bucketSizeInBytes :=
        hwf.pData i hi
      have hpd64 : (st.buckets i).pData < 2 ^ 64 := by
        rw [hpd]; omega
      have hoff32 : off < 2 ^ 32 := by
        have := hwf.size32; omega
      refine ⟨rfl, ?_, ?_⟩
      · show (updf st.buckets i
          (PoolBucket.FreeInterval (st.buckets i) st.mem p p).1 i).head = _
        unfold updf
        rw [if_pos rfl]
        unfold PoolBucket.FreeInterval
        have e1 : p + 2 ^ 64 - (st.buckets i).pData % 2 ^ 64 = off + 2 ^ 64 := by
          rw [Nat.mod_eq_of_lt hpd64, hpd]
          omega
        simp only []
        rw [e1, Nat.add_mod_right, Nat.mod_eq_of_lt (by omega : off < 2 ^ 64),
          Nat.mod_eq_of_lt hoff32]
      · show (updf st.buckets i
          (PoolBucket.FreeInterval (st.buckets i) st.mem p p).1 i).globalTag = _
        unfold updf
        rw [if_pos rfl]
        rfl
    · intro hmax
      have hok : (ReleaseToCache true (st.tls i) (st.buckets i) st.mem p).1 =
          true := by
        rw [releaseToCache_ok]; simp [hmax]
      rw [if_pos hok]
      rcases releaseToCache_evs_ok true (st.tls i) (st.buckets i) st.mem p hmax
        with he | ⟨h1, t1, he⟩ <;> simp [he]
  · intro h hread
    have hge := findBucket_not_mine st hwf p hp64 h
    unfold Free
    rw [if_neg (show ¬¬IsReadable p from not_not_intro hread),
      if_neg (Nat.not_lt.mpr hge)]

/-- Witness for C3 on the concrete 8-bucket allocator: the sentinel case
at `p = 16384`, the arena case at `p = 69632` with no thread cache, and
the fallback case at `p = 20000`. -/
theorem c3_free_dispatch_witness :
    WF (mkState 65536 8 4096) ∧
    Free gNull (mkState 65536 8 4096) 16384 = (mkState 65536 8 4096, []) ∧
    (Free gNull (mkState 65536 8 4096) 69632).2 =
      [Ev.cachePush 69632 false, Ev.fi 69632 69632] ∧
    (Free gNull (mkState 65536 8 4096) 20000).2 = [Ev.genFreeEv 20000] := by
  have hwf : WF (mkState 65536 8 4096) := by decide
  refine ⟨hwf, ?_, ?_, ?_⟩
  · exact (c3_free_dispatch gNull (mkState 65536 8 4096) 16384 hwf
      (by decide)).1 (by decide)
  · exact ((c3_free_dispatch gNull (mkState 65536 8 4096) 69632 hwf
      (by decide)).2.1 1 0 (by decide) (by decide) (by decide)).2.1
      (by decide) |>.1
  · rw [(c3_free_dispatch gNull (mkState 65536 8 4096) 20000 hwf
      (by decide)).2.2 (by decide) (by decide)]


lemma freeIntervalSeq_eq (pushes : List (Nat × Nat)) :
    ∀ (b : PoolBucket) (mem : Mem),
      freeIntervalSeq b mem pushes =
        (List.range pushes.length).map fun j => (b.globalTag + j) % 2 ^ 32 := by
  induction pushes with
  | nil => intro b mem; rfl
  | cons ht rest ih =>
    intro b mem
    show (b.globalTag % 2 ^ 32) :: freeIntervalSeq _ _ rest = _
    rw [ih]
    show _ = (List.range (rest.length + 1)).map fun j => (b.globalTag + j) % 2 ^ 32
    rw [List.range_succ_eq_map, List.map_cons, List.map_map]
    refine congrArg₂ _ (by simp) ?_
    apply List.map_congr_left
    intro j _
    show ((b.globalTag + 1) % 2 ^ 32 + j) % 2 ^ 32 = (b.globalTag + j.succ) % 2 ^ 32
    rw [Nat.mod_add_mod]
    omega

/-- C9: across every sequence of completed `FreeInterval` pushes onto a
bucket's freelist, the tag component of the head tagged-index is the
reduction modulo `2^32` of a monotonically non-decreasing counter (the
bucket's `globalTag`, consumed once per push). -/
theorem c9_freelist_tags_monotone (b : PoolBucket) (mem : Mem)
    (pushes : List (Nat × Nat)) :
    ∃ T : Nat → Nat,
      (∀ j1 j2, j1 ≤ j2 → T j1 ≤ T j2) ∧
      freeIntervalSeq b mem pushes =
        (List.range pushes.length).map fun j => T j % 2 ^ 32 :=
  ⟨fun j => b.globalTag + j, fun _ _ h => Nat.add_le_add_left h _,
   freeIntervalSeq_eq pushes b mem⟩

/-- C10 (amended): `AllocFromCache` always preserves the cache-occupancy
invariant, and `ReleaseToCache` preserves it whenever
`maxElementsCount ≠ 1` (at `maxElementsCount = 1` the flush-half step
returns zero slots and the append exceeds L1's capacity, see the
counterexample). -/
theorem c10_cache_occupancy (useL0 : Bool) (t : TlsPoolBucket)
    (b : PoolBucket) (mem : Mem) (p : Nat) (hinv : CacheInv t) :
    CacheInv (AllocFromCache t).2 ∧
    (t.maxElementsCount ≠ 1 →
      CacheInv (ReleaseToCache useL0 t b mem p).2.1) := by
  obtain ⟨h0, h1⟩ := hinv
  constructor
  · unfold AllocFromCache CacheInv
    split_ifs <;> simp_all <;> omega
  · intro hne
    unfold ReleaseToCache
    split_ifs with hc1 hc2 hc3
    · exact ⟨h0, h1⟩
    · exact ⟨Nat.succ_le_of_lt hc2.2, h1⟩
    · exact ⟨h0, Nat.succ_le_of_lt hc3⟩
    · have hfull : t.numElementsL1 = t.maxElementsCount := by omega
      have hhalf : t.numElementsL1 >>> 1 = t.numElementsL1 / 2 := by
        rw [Nat.shiftRight_eq_div_pow]
      have hpos : 1 ≤ t.numElementsL1 / 2 := by omega
      rw [hhalf]
      unfold ReturnL1CacheToMaster
      rw [if_neg (by omega), if_neg (by omega)]
      refine ⟨h0, ?_⟩
      show t.numElementsL1 - min (t.numElementsL1 / 2) t.numElementsL1 + 1 ≤
        t.maxElementsCount
      have hm : min (t.numElementsL1 / 2) t.numElementsL1 = t.numElementsL1 / 2 :=
        Nat.min_eq_left (by omega)
      omega

lemma range8 : List.range 8 = [0, 1, 2, 3, 4, 5, 6, 7] := rfl

lemma writeU64_out (mem : Mem) (a v x : Nat) (h : x < a ∨ a + 8 ≤ x) :
    writeU64 mem a v x = mem x := by
  unfold writeU64
  rw [if_neg (by omega)]

lemma writeTI_out (mem : Mem) (a : Nat) (t : TaggedIndex) (x : Nat)
    (h : x < a ∨ a + 8 ≤ x) : writeTI mem a t x = mem x :=
  writeU64_out mem a (tiToU t) x h

lemma writeU64_in (mem : Mem) (a v j : Nat) (h : j < 8) :
    writeU64 mem a v (a + j) = v / 256 ^ j % 256 := by
  unfold writeU64
  rw [if_pos (by omega)]
  rw [Nat.add_sub_cancel_left]

lemma readU64_congr (mem1 mem2 : Mem) (a : Nat)
    (h : ∀ j, j < 8 → mem1 (a + j) = mem2 (a + j)) :
    readU64 mem1 a = readU64 mem2 a := by
  unfold readU64
  rw [range8]
  simp only [List.foldr]
  rw [h 0 (by omega), h 1 (by omega), h 2 (by omega), h 3 (by omega),
    h 4 (by omega), h 5 (by omega), h 6 (by omega), h 7 (by omega)]

lemma readTI_congr (mem1 mem2 : Mem) (a : Nat)
    (h : ∀ j, j < 8 → mem1 (a + j) = mem2 (a + j)) :
    readTI mem1 a = readTI mem2 a := by
  unfold readTI
  rw [readU64_congr mem1 mem2 a h]

lemma bytes_foldr (k : Nat) : ∀ v : Nat,
    (List.range k).foldr (fun j acc => v / 256 ^ j % 256 % 256 + 256 * acc) 0 =
      v % 256 ^ k := by
  induction k with
  | zero => intro v; simp [Nat.mod_one]
  | succ k ih =>
    intro v
    rw [List.range_succ_eq_map]
    simp only [List.foldr_cons, List.foldr_map]
    have hfn : (fun (j : Nat) (acc : Nat) =>
        v / 256 ^ j.succ % 256 % 256 + 256 * acc) =
        (fun j acc => v / 256 / 256 ^ j % 256 % 256 + 256 * acc) := by
      funext j acc
      rw [pow_succ', Nat.div_div_eq_div_mul]
    rw [hfn, ih (v / 256)]
    have hkey : v % 256 ^ (k + 1) = v % 256 + 256 * (v / 256 % 256 ^ k) := by
      rw [pow_succ', Nat.mod_mul]
    rw [hkey]
    simp only [pow_zero, Nat.div_one]
    omega

lemma readU64_writeU64_same (mem : Mem) (a v : Nat) :
    readU64 (writeU64 mem a v) a = v % 2 ^ 64 := by
  unfold readU64
  rw [range8]
  simp only [List.foldr]
  rw [writeU64_in mem a v 0 (by omega), writeU64_in mem a v 1 (by omega),
    writeU64_in mem a v 2 (by omega), writeU64_in mem a v 3 (by omega),
    writeU64_in mem a v 4 (by omega), writeU64_in mem a v 5 (by omega),
    writeU64_in mem a v 6 (by omega), writeU64_in mem a v 7 (by omega)]
  have h := bytes_foldr 8 v
  rw [range8] at h
  simp only [List.foldr] at h
  rw [h]
  norm_num

lemma tiToU_lt (t : TaggedIndex) : tiToU t < 2 ^ 64 := by
  unfold tiToU
  have h1 : t.tag % 2 ^ 32 < 2 ^ 32 := Nat.mod_lt _ (by norm_num)
  have h2 : t.offset % 2 ^ 32 < 2 ^ 32 := Nat.mod_lt _ (by norm_num)
  have : t.offset % 2 ^ 32 * 2 ^ 32 ≤ (2 ^ 32 - 1) * 2 ^ 32 :=
    Nat.mul_le_mul_right _ (by omega)
  norm_num at this ⊢
  omega

lemma readTI_writeTI_same (mem : Mem) (a : Nat) (t : TaggedIndex) :
    readTI (writeTI mem a t) a = ⟨t.tag % 2 ^ 32, t.offset % 2 ^ 32⟩ := by
  unfold readTI writeTI
  rw [readU64_writeU64_same, Nat.mod_eq_of_lt (tiToU_lt t)]
  unfold tiToU
  have h1 : t.tag % 2 ^ 32 < 2 ^ 32 := Nat.mod_lt _ (by norm_num)
  rw [TaggedIndex.mk.injEq]
  constructor <;> omega

/-- The loop of `ReturnL1CacheToMaster` ends at the slot named by the last
L1 entry. -/
lemma returnLoop_tail (L1 : Nat → Nat) (pD n : Nat) :
    ∀ fuel mem pPrev i tag, n ≤ i + fuel → 1 ≤ i → i ≤ n →
      pPrev = pD + L1 (i - 1) →
      (returnLoop L1 pD mem pPrev i n tag fuel).2 = pD + L1 (n - 1) := by
  intro fuel
  induction fuel with
  | zero =>
    intro mem pPrev i tag hf h1 hn hp
    unfold returnLoop
    have : i = n := by omega
    subst this
    exact hp
  | succ fuel ih =>
    intro mem pPrev i tag hf h1 hn hp
    unfold returnLoop
    split
    · exact ih _ _ (i + 1) (tag + 1) (by omega) (by omega) (by omega) (by simp)
    · have : i = n := by omega
      subst this
      exact hp

/-- The loop of `ReturnL1CacheToMaster` only writes inside the 8-byte link
windows of the slots it chains. -/
lemma returnLoop_frame (L1 : Nat → Nat) (pD n : Nat) :
    ∀ fuel mem pPrev i tag x,
      (i < n → x < pPrev ∨ pPrev + 8 ≤ x) →
      (∀ m, i ≤ m → m + 1 < n → x < pD + L1 m ∨ pD + L1 m + 8 ≤ x) →
      (returnLoop L1 pD mem pPrev i n tag fuel).1 x = mem x := by
  intro fuel
  induction fuel with
  | zero => intro mem pPrev i tag x _ _; rfl
  | succ fuel ih =>
    intro mem pPrev i tag x hPrev hSlots
    unfold returnLoop
    split
    case isTrue hin =>
      rw [ih _ _ (i + 1) (tag + 1) x
        (fun h => hSlots i (le_refl i) h)
        (fun m hm hmn => hSlots m (by omega) hmn)]
      exact writeTI_out mem pPrev _ x (hPrev hin)
    case isFalse => rfl

/-- After the loop of `ReturnL1CacheToMaster`, slot `L1 m` (for `m` between
`i - 1` and `n - 2`) holds a tagged index naming `L1 (m + 1)`: the trailing
entries form one pre-linked chain. -/
lemma returnLoop_links (L1 : Nat → Nat) (pD n : Nat)
    (hsp : ∀ m1 m2, m1 < n → m2 < n → m1 ≠ m2 →
      L1 m1 + 8 ≤ L1 m2 ∨ L1 m2 + 8 ≤ L1 m1) :
    ∀ fuel mem pPrev i tag, n ≤ i + fuel → 1 ≤ i → pPrev = pD + L1 (i - 1) →
      ∀ m, i - 1 ≤ m → m + 1 < n →
        readTI (returnLoop L1 pD mem pPrev i n tag fuel).1 (pD + L1 m) =
          ⟨(tag + (m + 1 - i)) % 2 ^ 32, L1 (m + 1) % 2 ^ 32⟩ := by
  intro fuel
  induction fuel with
  | zero =>
    intro mem pPrev i tag hf h1 hp m hm hmn
    omega
  | succ fuel ih =>
    intro mem pPrev i tag hf h1 hp m hm hmn
    have hin : i < n := by omega
    unfold returnLoop
    rw [if_pos hin]
    rcases Nat.lt_or_ge m i with hmi | hmi
    · -- m = i - 1: this iteration writes the link, later ones leave it alone
      have hmeq : m = i - 1 := by omega
      subst hmeq
      have hfr : ∀ j, j < 8 →
          (returnLoop L1 pD (writeTI mem pPrev ⟨tag, L1 i⟩) (pD + L1 i)
            (i + 1) n (tag + 1) fuel).1 (pD + L1 (i - 1) + j) =
          writeTI mem pPrev ⟨tag, L1 i⟩ (pD + L1 (i - 1) + j) := by
        intro j hj
        apply returnLoop_frame
        · intro _
          rcases hsp (i - 1) i (by omega) hin (by omega) with h | h <;> omega
        · intro m1 hm1 hm1n
          rcases hsp (i - 1) m1 (by omega) (by omega) (by omega) with h | h <;>
            omega
      rw [readTI_congr _ _ _ hfr, hp, readTI_writeTI_same]
      have e1 : i - 1 + 1 - i = 0 := by omega
      have e2 : i - 1 + 1 = i := by omega
      rw [TaggedIndex.mk.injEq, e1, e2]
      constructor <;> simp
    · -- m ≥ i: handled by the recursive call
      rw [ih _ _ (i + 1) (tag + 1) (by omega) (by omega) (by simp) m
        (by omega) hmn]
      have : tag + 1 + (m + 1 - (i + 1)) = tag + (m + 1 - i) := by omega
      rw [this]

/-- `ReturnL1CacheToMaster` with a positive in-range count: decrement the
L1 counter by `count` and hand the chained trailing entries to
`FreeInterval`. -/
lemma returnL1_spec (t : TlsPoolBucket) (b : PoolBucket) (mem : Mem)
    (count : Nat) (h1 : count ≠ 0) (h2 : t.numElementsL1 ≠ 0)
    (hc : count ≤ t.numElementsL1) :
    ReturnL1CacheToMaster t b mem count =
      ({ t with numElementsL1 := t.numElementsL1 - count },
       (PoolBucket.FreeInterval b
          (returnLoop t.storageL1 t.pBucketData mem
            (t.pBucketData + t.storageL1 (t.numElementsL1 - count))
            (t.numElementsL1 - count + 1) t.numElementsL1 0xFFFFFF
            t.numElementsL1).1
          (t.pBucketData + t.storageL1 (t.numElementsL1 - count))
          (returnLoop t.storageL1 t.pBucketData mem
            (t.pBucketData + t.storageL1 (t.numElementsL1 - count))
            (t.numElementsL1 - count + 1) t.numElementsL1 0xFFFFFF
            t.numElementsL1).2).1,
       (PoolBucket.FreeInterval b
          (returnLoop t.storageL1 t.pBucketData mem
            (t.pBucketData + t.storageL1 (t.numElementsL1 - count))
            (t.numElementsL1 - count + 1) t.numElementsL1 0xFFFFFF
            t.numElementsL1).1
          (t.pBucketData + t.storageL1 (t.numElementsL1 - count))
          (returnLoop t.storageL1 t.pBucketData mem
            (t.pBucketData + t.storageL1 (t.numElementsL1 - count))
            (t.numElementsL1 - count + 1) t.numElementsL1 0xFFFFFF
            t.numElementsL1).2).2,
       [Ev.fi (t.pBucketData + t.storageL1 (t.numElementsL1 - count))
          (returnLoop t.storageL1 t.pBucketData mem
            (t.pBucketData + t.storageL1 (t.numElementsL1 - count))
            (t.numElementsL1 - count + 1) t.numElementsL1 0xFFFFFF
            t.numElementsL1).2]) := by
  unfold ReturnL1CacheToMaster
  rw [if_neg h1, if_neg h2, Nat.min_eq_left hc]

lemma freeInterval_mem (b : PoolBucket) (mem : Mem) (pHead pTail : Nat) :
    (PoolBucket.FreeInterval b mem pHead pTail).2 = writeTI mem pTail b.head :=
  rfl

lemma freeInterval_head (b : PoolBucket) (mem : Mem) (pHead pTail : Nat) :
    (PoolBucket.FreeInterval b mem pHead pTail).1.head =
      ⟨b.globalTag % 2 ^ 32,
       (pHead + 2 ^ 64 - b.pData % 2 ^ 64) % 2 ^ 64 % 2 ^ 32⟩ := rfl

lemma freeInterval_globalTag (b : PoolBucket) (mem : Mem) (pHead pTail : Nat) :
    (PoolBucket.FreeInterval b mem pHead pTail).1.globalTag =
      (b.globalTag + 1) % 2 ^ 32 := rfl

lemma freeInterval_pData (b : PoolBucket) (mem : Mem) (pHead pTail : Nat) :
    (PoolBucket.FreeInterval b mem pHead pTail).1.pData = b.pData := rfl

lemma returnL1_mem (t : TlsPoolBucket) (b : PoolBucket) (mem : Mem)
    (count : Nat) (h1 : count ≠ 0) (h2 : t.numElementsL1 ≠ 0)
    (hc : count ≤ t.numElementsL1) :
    (ReturnL1CacheToMaster t b mem count).2.2.1 =
      writeTI
        (returnLoop t.storageL1 t.pBucketData mem
          (t.pBucketData + t.storageL1 (t.numElementsL1 - count))
          (t.numElementsL1 - count + 1) t.numElementsL1 0xFFFFFF
          t.numElementsL1).1
        (returnLoop t.storageL1 t.pBucketData mem
          (t.pBucketData + t.storageL1 (t.numElementsL1 - count))
          (t.numElementsL1 - count + 1) t.numElementsL1 0xFFFFFF
          t.numElementsL1).2
        b.head := by
  rw [returnL1_spec t b mem count h1 h2 hc, freeInterval_mem]

/-- Distinct multiples of 16 keep their 8-byte link windows disjoint. -/
lemma spacing_of_div16 (L1 : Nat → Nat) (n : Nat)
    (h16 : ∀ j, j < n → 16 ∣ L1 j)
    (hdist : ∀ j1 j2, j1 < n → j2 < n → j1 ≠ j2 → L1 j1 ≠ L1 j2) :
    ∀ m1 m2, m1 < n → m2 < n → m1 ≠ m2 →
      L1 m1 + 8 ≤ L1 m2 ∨ L1 m2 + 8 ≤ L1 m1 := by
  intro m1 m2 hm1 hm2 hne
  obtain ⟨x, hx⟩ := h16 m1 hm1
  obtain ⟨y, hy⟩ := h16 m2 hm2
  have := hdist m1 m2 hm1 hm2 hne
  omega

/-- C6 (amended): a push through `ReleaseToCache<true>` on an initialized
cache (`maxElementsCount > 0`) always succeeds, and a push is refused
exactly when `maxElementsCount = 0`.  The offset is appended to L0 when L0
has room; else to L1 when L1 has room; else — provided
`numElementsL1 ≥ 2`, which the `maxElementsCount = 1` counterexample shows
is necessary — exactly the `⌊numElementsL1 / 2⌋` trailing L1 entries are
returned to the bucket as one pre-linked chain via a single `FreeInterval`
call (slot `L1[m]` names `L1[m+1]`, the last chained slot receives the old
freelist head, the new head names the chain head and consumes one tag),
after which the offset is appended to L1. -/
theorem c6_release_to_cache (t : TlsPoolBucket) (b : PoolBucket) (mem : Mem)
    (p : Nat)
    (hmax : t.maxElementsCount ≠ 0)
    (hpdb : b.pData = t.pBucketData)
    (hpd64 : t.pBucketData < 2 ^ 64)
    (hple : t.pBucketData ≤ p)
    (hp32 : p - t.pBucketData < 2 ^ 32)
    (hL1lt : ∀ j, j < t.numElementsL1 → t.storageL1 j < 2 ^ 32)
    (h16 : ∀ j, j < t.numElementsL1 → 16 ∣ t.storageL1 j)
    (hdist : ∀ j1 j2, j1 < t.numElementsL1 → j2 < t.numElementsL1 → j1 ≠ j2 →
      t.storageL1 j1 ≠ t.storageL1 j2) :
    (∀ (t2 : TlsPoolBucket) (b2 : PoolBucket) (mem2 : Mem) (p2 : Nat),
      (ReleaseToCache true t2 b2 mem2 p2).1 = false ↔
        t2.maxElementsCount = 0)
    ∧ (ReleaseToCache true t b mem p).1 = true
    ∧ (t.numElementsL0 < SMM_MAX_CACHE_ITEMS_COUNT →
        (ReleaseToCache true t b mem p).2.1.numElementsL0 =
          t.numElementsL0 + 1
        ∧ (ReleaseToCache true t b mem p).2.1.storageL0 t.numElementsL0 =
            p - t.pBucketData
        ∧ (∀ j, j < t.numElementsL0 →
            (ReleaseToCache true t b mem p).2.1.storageL0 j = t.storageL0 j)
        ∧ (ReleaseToCache true t b mem p).2.1.numElementsL1 = t.numElementsL1
        ∧ (ReleaseToCache true t b mem p).2.2.1 = b
        ∧ (ReleaseToCache true t b mem p).2.2.2.1 = mem
        ∧ (ReleaseToCache true t b mem p).2.2.2.2 = [Ev.cachePush p true])
    ∧ (¬t.numElementsL0 < SMM_MAX_CACHE_ITEMS_COUNT →
        t.numElementsL1 < t.maxElementsCount →
        (ReleaseToCache true t b mem p).2.1.numElementsL1 =
          t.numElementsL1 + 1
        ∧ (ReleaseToCache true t b mem p).2.1.storageL1 t.numElementsL1 =
            p - t.pBucketData
        ∧ (∀ j, j < t.numElementsL1 →
            (ReleaseToCache true t b mem p).2.1.storageL1 j = t.storageL1 j)
        ∧ (ReleaseToCache true t b mem p).2.1.numElementsL0 = t.numElementsL0
        ∧ (ReleaseToCache true t b mem p).2.2.1 = b
        ∧ (ReleaseToCache true t b mem p).2.2.2.1 = mem
        ∧ (ReleaseToCache true t b mem p).2.2.2.2 = [Ev.cachePush p true])
    ∧ (¬t.numElementsL0 < SMM_MAX_CACHE_ITEMS_COUNT →
        ¬t.numElementsL1 < t.maxElementsCount →
        2 ≤ t.numElementsL1 →
        (ReleaseToCache true t b mem p).2.2.2.2 =
          [Ev.fi
            (t.pBucketData +
              t.storageL1 (t.numElementsL1 - t.numElementsL1 / 2))
            (t.pBucketData + t.storageL1 (t.numElementsL1 - 1)),
           Ev.cachePush p true]
        ∧ (ReleaseToCache true t b mem p).2.1.numElementsL1 =
            t.numElementsL1 - t.numElementsL1 / 2 + 1
        ∧ (ReleaseToCache true t b mem p).2.1.numElementsL0 = t.numElementsL0
        ∧ (ReleaseToCache true t b mem p).2.1.storageL1
            (t.numElementsL1 - t.numElementsL1 / 2) = p - t.pBucketData
        ∧ (∀ j, j < t.numElementsL1 - t.numElementsL1 / 2 →
            (ReleaseToCache true t b mem p).2.1.storageL1 j = t.storageL1 j)
        ∧ (∀ m, t.numElementsL1 - t.numElementsL1 / 2 ≤ m →
            m + 1 < t.numElementsL1 →
            (readTI (ReleaseToCache true t b mem p).2.2.2.1
              (t.pBucketData + t.storageL1 m)).offset = t.storageL1 (m + 1))
        ∧ readTI (ReleaseToCache true t b mem p).2.2.2.1
            (t.pBucketData + t.storageL1 (t.numElementsL1 - 1)) =
            ⟨b.head.tag % 2 ^ 32, b.head.offset % 2 ^ 32⟩
        ∧ (ReleaseToCache true t b mem p).2.2.1.head =
            ⟨b.globalTag % 2 ^ 32,
             t.storageL1 (t.numElementsL1 - t.numElementsL1 / 2)⟩
        ∧ (ReleaseToCache true t b mem p).2.2.1.globalTag =
            (b.globalTag + 1) % 2 ^ 32) := by
  have hoff : rtcOff t p = p - t.pBucketData := by
    unfold rtcOff
    rw [Nat.mod_eq_of_lt hpd64]
    have e1 : p + 2 ^ 64 - t.pBucketData = p - t.pBucketData + 2 ^ 64 := by
      omega
    rw [e1, Nat.add_mod_right,
      Nat.mod_eq_of_lt (show p - t.pBucketData < 2 ^ 64 by omega),
      Nat.mod_eq_of_lt hp32]
  refine ⟨?_, ?_, ?_, ?_, ?_⟩
  · intro t2 b2 mem2 p2
    rw [releaseToCache_ok]
    by_cases h : t2.maxElementsCount = 0 <;> simp [h]
  · rw [releaseToCache_ok]
    simp [hmax]
  · intro hL0
    unfold ReleaseToCache
    rw [if_neg hmax, if_pos ⟨rfl, hL0⟩]
    refine ⟨rfl, ?_, ?_, rfl, rfl, rfl, rfl⟩
    · show updf t.storageL0 t.numElementsL0 (rtcOff t p) t.numElementsL0 = _
      unfold updf
      rw [if_pos rfl, hoff]
    · intro j hj
      show updf t.storageL0 t.numElementsL0 (rtcOff t p) j = _
      unfold updf
      rw [if_neg (by omega)]
  · intro hL0 hL1
    unfold ReleaseToCache
    rw [if_neg hmax, if_neg (fun h => hL0 h.2), if_pos hL1]
    refine ⟨rfl, ?_, ?_, rfl, rfl, rfl, rfl⟩
    · show updf t.storageL1 t.numElementsL1 (rtcOff t p) t.numElementsL1 = _
      unfold updf
      rw [if_pos rfl, hoff]
    · intro j hj
      show updf t.storageL1 t.numElementsL1 (rtcOff t p) j = _
      unfold updf
      rw [if_neg (by omega)]
  · intro hL0 hL1 hn2
    have hhalf : t.numElementsL1 >>> 1 = t.numElementsL1 / 2 := by
      rw [Nat.shiftRight_eq_div_pow]
    have hhpos : t.numElementsL1 / 2 ≠ 0 := by omega
    have hhle : t.numElementsL1 / 2 ≤ t.numElementsL1 := Nat.div_le_self _ _
    have hfirst1 : t.numElementsL1 - t.numElementsL1 / 2 + 1 ≤
        t.numElementsL1 := by omega
    have hsp := spacing_of_div16 t.storageL1 t.numElementsL1 h16 hdist
    have htail : (returnLoop t.storageL1 t.pBucketData mem
        (t.pBucketData +
          t.storageL1 (t.numElementsL1 - t.numElementsL1 / 2))
        (t.numElementsL1 - t.numElementsL1 / 2 + 1) t.numElementsL1 0xFFFFFF
        t.numElementsL1).2 =
        t.pBucketData + t.storageL1 (t.numElementsL1 - 1) := by
      rw [returnLoop_tail t.storageL1 t.pBucketData t.numElementsL1
        t.numElementsL1 mem _ _ 0xFFFFFF (by omega) (by omega) hfirst1
        (by rw [Nat.add_sub_cancel])]
    unfold ReleaseToCache
    rw [if_neg hmax, if_neg (fun h => hL0 h.2), if_neg hL1, hhalf,
      returnL1_spec t b mem (t.numElementsL1 / 2) hhpos (by omega) hhle]
    refine ⟨?_, rfl, rfl, ?_, ?_, ?_, ?_, ?_, ?_⟩
    · rw [htail]
      rfl
    · show updf t.storageL1 (t.numElementsL1 - t.numElementsL1 / 2)
        (rtcOff t p) (t.numElementsL1 - t.numElementsL1 / 2) = _
      unfold updf
      rw [if_pos rfl, hoff]
    · intro j hj
      show updf t.storageL1 (t.numElementsL1 - t.numElementsL1 / 2)
        (rtcOff t p) j = _
      unfold updf
      rw [if_neg (by omega)]
    · -- the chained slots: each names its successor
      intro m hm hmn
      rw [freeInterval_mem]
      have hcongr : readTI
          (writeTI (returnLoop t.storageL1 t.pBucketData mem
            (t.pBucketData +
              t.storageL1 (t.numElementsL1 - t.numElementsL1 / 2))
            (t.numElementsL1 - t.numElementsL1 / 2 + 1) t.numElementsL1
            0xFFFFFF t.numElementsL1).1
            (returnLoop t.storageL1 t.pBucketData mem
              (t.pBucketData +
                t.storageL1 (t.numElementsL1 - t.numElementsL1 / 2))
              (t.numElementsL1 - t.numElementsL1 / 2 + 1) t.numElementsL1
              0xFFFFFF t.numElementsL1).2 b.head)
          (t.pBucketData + t.storageL1 m) =
          readTI (returnLoop t.storageL1 t.pBucketData mem
            (t.pBucketData +
              t.storageL1 (t.numElementsL1 - t.numElementsL1 / 2))
            (t.numElementsL1 - t.numElementsL1 / 2 + 1) t.numElementsL1
            0xFFFFFF t.numElementsL1).1 (t.pBucketData + t.storageL1 m) := by
        apply readTI_congr
        intro j hj
        rw [htail]
        apply writeTI_out
        rcases hsp m (t.numElementsL1 - 1) (by omega) (by omega) (by omega)
          with h | h <;> omega
      rw [hcongr]
      rw [returnLoop_links t.storageL1 t.pBucketData t.numElementsL1 hsp
        t.numElementsL1 mem _ _ 0xFFFFFF (by omega) (by omega)
        (by rw [Nat.add_sub_cancel]) m (by omega) hmn]
      exact Nat.mod_eq_of_lt (hL1lt (m + 1) hmn)
    · -- the last chained slot receives the old freelist head
      rw [freeInterval_mem, htail]
      exact readTI_writeTI_same _ _ b.head
    · -- the new freelist head names the chain head
      rw [freeInterval_head, TaggedIndex.mk.injEq]
      refine ⟨rfl, ?_⟩
      rw [hpdb, Nat.mod_eq_of_lt hpd64]
      have hflt : t.storageL1 (t.numElementsL1 - t.numElementsL1 / 2) <
          2 ^ 32 := hL1lt _ (by omega)
      have e1 : t.pBucketData +
          t.storageL1 (t.numElementsL1 - t.numElementsL1 / 2) + 2 ^ 64 -
          t.pBucketData =
          t.storageL1 (t.numElementsL1 - t.numElementsL1 / 2) + 2 ^ 64 := by
        omega
      rw [e1, Nat.add_mod_right,
        Nat.mod_eq_of_lt
          (show t.storageL1 (t.numElementsL1 - t.numElementsL1 / 2) < 2 ^ 64
            by omega),
        Nat.mod_eq_of_lt hflt]
    · rw [freeInterval_globalTag]

/-- Witness for C10 at the uninitialized cache record. -/
theorem c10_cache_occupancy_witness :
    CacheInv emptyTls ∧
    (CacheInv (AllocFromCache emptyTls).2 ∧
     (emptyTls.maxElementsCount ≠ 1 →
       CacheInv (ReleaseToCache true emptyTls bFull (fun _ => 0) 116).2.1)) :=
  ⟨by decide, c10_cache_occupancy true emptyTls bFull (fun _ => 0) 116 (by decide)⟩


/-- Witness for C6: pushing offset 32 onto the full `tC6` flushes the one
trailing L1 entry (offset 16, slot 65552) through a single `FreeInterval`
call and succeeds. -/
theorem c6_release_to_cache_witness :
    tC6.maxElementsCount ≠ 0 ∧ 2 ≤ tC6.numElementsL1 ∧
    (ReleaseToCache true tC6 bC6 (fun _ => 0) 65568).1 = true ∧
    (ReleaseToCache true tC6 bC6 (fun _ => 0) 65568).2.2.2.2 =
      [Ev.fi 65552 65552, Ev.cachePush 65568 true] := by
  have h := c6_release_to_cache tC6 bC6 (fun _ => 0) 65568 (by decide)
    (by decide) (by decide) (by decide) (by decide)
    (by intro j hj
        show 16 * j < 2 ^ 32
        have h2 : j < 2 := hj
        omega)
    (by intro j hj
        exact ⟨j, rfl⟩)
    (by intro j1 j2 h1 h2 hne
        show 16 * j1 ≠ 16 * j2
        omega)
  have he := h.2.2.2.2 (by decide) (by decide) (by decide)
  exact ⟨by decide, by decide, h.2.1, he.1.trans (by decide)⟩

lemma bucketLoop_succ (n : Nat) (st : AllocState) (i fuel : Nat) :
    bucketLoop n st i (fuel + 1) =
      if i < n then
        if (PoolBucket.Alloc (st.buckets i) st.mem).1 ≠ 0 then
          ⟨(PoolBucket.Alloc (st.buckets i) st.mem).1,
           { st with buckets := updf st.buckets i
                        (PoolBucket.Alloc (st.buckets i) st.mem).2 },
           [Ev.bucketPop i (PoolBucket.Alloc (st.buckets i) st.mem).1]⟩
        else
          ⟨(bucketLoop n
              { st with buckets := updf st.buckets i
                           (PoolBucket.Alloc (st.buckets i) st.mem).2 }
              (i + 1) fuel).ptr,
           (bucketLoop n
              { st with buckets := updf st.buckets i
                           (PoolBucket.Alloc (st.buckets i) st.mem).2 }
              (i + 1) fuel).st,
           Ev.bucketPop i 0 ::
             (bucketLoop n
                { st with buckets := updf st.buckets i
                             (PoolBucket.Alloc (st.buckets i) st.mem).2 }
                (i + 1) fuel).evs⟩
      else ⟨0, st, []⟩ := rfl

lemma pool_alloc_spec (b : PoolBucket) (mem : Mem) :
    (b.head = TaggedIndex.invalid ∧ PoolBucket.Alloc b mem = (0, b)) ∨
    (b.head ≠ TaggedIndex.invalid ∧
      PoolBucket.Alloc b mem =
        (b.pData + b.head.offset,
         { b with head := readTI mem (b.pData + b.head.offset) })) := by
  unfold PoolBucket.Alloc
  split_ifs with h
  · exact Or.inl ⟨h, rfl⟩
  · exact Or.inr ⟨h, rfl⟩

lemma bucketLoop_zero (n : Nat) (st : AllocState) (i : Nat) :
    bucketLoop n st i 0 = ⟨0, st, []⟩ := rfl

lemma opres_ptr (p : Nat) (s : AllocState) (e : List Ev) :
    (OpRes.mk p s e).ptr = p := rfl

lemma opres_evs (p : Nat) (s : AllocState) (e : List Ev) :
    (OpRes.mk p s e).evs = e := rfl

/-- The bucket-advance loop only changes the `buckets` field, and only at
indices in `[i, n)`. -/
lemma bucketLoop_state (n : Nat) : ∀ (fuel : Nat) (st : AllocState) (i : Nat),
    ∃ f : Nat → PoolBucket,
      (bucketLoop n st i fuel).st = { st with buckets := f } ∧
      ∀ j, j < i ∨ n ≤ j → f j = st.buckets j := by
  intro fuel
  induction fuel with
  | zero => intro st i; exact ⟨st.buckets, rfl, fun j _ => rfl⟩
  | succ fuel ih =>
    intro st i
    rw [bucketLoop_succ]
    split_ifs with h1 h2
    · refine ⟨updf st.buckets i (PoolBucket.Alloc (st.buckets i) st.mem).2,
        rfl, ?_⟩
      intro j hj
      unfold updf
      rw [if_neg (by omega)]
    · obtain ⟨f, hf, hfj⟩ := ih
        { st with
          buckets := updf st.buckets i (PoolBucket.Alloc (st.buckets i) st.mem).2 }
        (i + 1)
      refine ⟨f, hf, ?_⟩
      intro j hj
      rw [hfj j (by omega)]
      show updf st.buckets i (PoolBucket.Alloc (st.buckets i) st.mem).2 j = _
      unfold updf
      rw [if_neg (by omega)]
    · exact ⟨st.buckets, rfl, fun j _ => rfl⟩

/-- Every event of the bucket-advance loop is a `bucketPop` at an index in
`[i, n)`. -/
lemma bucketLoop_evs (n : Nat) : ∀ (fuel : Nat) (st : AllocState) (i : Nat)
    (ev : Ev), ev ∈ (bucketLoop n st i fuel).evs →
      ∃ j r, i ≤ j ∧ j < n ∧ ev = Ev.bucketPop j r := by
  intro fuel
  induction fuel with
  | zero =>
    intro st i ev hev
    rw [bucketLoop_zero, opres_evs] at hev
    exact absurd hev (List.not_mem_nil ev)
  | succ fuel ih =>
    intro st i ev hev
    rw [bucketLoop_succ] at hev
    split_ifs at hev with h1 h2
    · rw [opres_evs] at hev
      exact ⟨i, _, le_refl i, h1, List.mem_singleton.mp hev⟩
    · rw [opres_evs] at hev
      rcases List.mem_cons.mp hev with hev | hev
      · exact ⟨i, 0, le_refl i, h1, hev⟩
      · obtain ⟨j, r, hj1, hj2, he⟩ := ih _ (i + 1) ev hev
        exact ⟨j, r, by omega, hj2, he⟩
    · rw [opres_evs] at hev
      exact absurd hev (List.not_mem_nil ev)

/-- A non-null pointer produced by the bucket-advance loop is the head slot
of some bucket `j ∈ [i, n)`, taken from `j`'s freelist. -/
lemma bucketLoop_ptr (n : Nat) : ∀ (fuel : Nat) (st : AllocState) (i : Nat),
    (∀ j, i ≤ j → j < n → 0 < (st.buckets j).pData) →
    (bucketLoop n st i fuel).ptr ≠ 0 →
    ∃ j, i ≤ j ∧ j < n ∧ (st.buckets j).head ≠ TaggedIndex.invalid ∧
      (bucketLoop n st i fuel).ptr =
        (st.buckets j).pData + (st.buckets j).head.offset := by
  intro fuel
  induction fuel with
  | zero =>
    intro st i _ hptr
    rw [bucketLoop_zero, opres_ptr] at hptr
    exact absurd rfl hptr
  | succ fuel ih =>
    intro st i hpd hptr
    rw [bucketLoop_succ] at hptr ⊢
    split_ifs at hptr ⊢ with h1 h2
    · -- pop at `i` succeeded
      rcases pool_alloc_spec (st.buckets i) st.mem with ⟨_, he⟩ | ⟨hne, he⟩
      · rw [he] at h2; simp at h2
      · rw [opres_ptr]
        exact ⟨i, le_refl i, h1, hne, by rw [he]⟩
    · -- pop at `i` failed: its head is the sentinel and the bucket is
      -- unchanged, so the recursive call runs on pointwise-equal buckets
      rw [opres_ptr] at hptr ⊢
      rcases pool_alloc_spec (st.buckets i) st.mem with ⟨hinv, he⟩ | ⟨_, he⟩
      · have hbeq : ∀ j,
            updf st.buckets i (PoolBucket.Alloc (st.buckets i) st.mem).2 j =
            st.buckets j := by
          intro j
          unfold updf
          split_ifs with hji
          · rw [he, hji]
          · rfl
        obtain ⟨j, hj1, hj2, hj3, hj4⟩ := ih
          { st with
            buckets := updf st.buckets i (PoolBucket.Alloc (st.buckets i) st.mem).2 }
          (i + 1)
          (by intro j hja hjb
              show 0 < (updf st.buckets i _ j).pData
              rw [hbeq j]
              exact hpd j (by omega) hjb)
          hptr
        have hbeq2 : ∀ j2, ({ st with
            buckets := updf st.buckets i
              (PoolBucket.Alloc (st.buckets i) st.mem).2 } : AllocState).buckets
              j2 = st.buckets j2 := hbeq
        rw [hbeq2 j] at hj3 hj4
        exact ⟨j, by omega, hj2, hj3, hj4⟩
      · rw [he] at h2
        simp at h2
        have := hpd i (le_refl i) h1
        omega
    · rw [opres_ptr] at hptr
      exact absurd rfl hptr

/-- The thread-cache attempt only changes the `tls` field, and only at the
probed index. -/
lemma cachePopStep_state (st : AllocState) (i : Nat) :
    ∃ tl : Nat → TlsPoolBucket,
      (cachePopStep st i).2.1 = { st with tls := tl } ∧
      ∀ j, j ≠ i → tl j = st.tls j := by
  unfold cachePopStep
  split_ifs
  · refine ⟨updf st.tls i (AllocFromCache (st.tls i)).2, rfl, ?_⟩
    intro j hj
    unfold updf
    rw [if_neg hj]
  · exact ⟨st.tls, rfl, fun _ _ => rfl⟩

lemma cachePopStep_evs (st : AllocState) (i : Nat) (ev : Ev)
    (hev : ev ∈ (cachePopStep st i).2.2) :
    ∃ r, ev = Ev.cachePop i r := by
  unfold cachePopStep at hev
  split_ifs at hev
  · simp at hev
    exact ⟨_, hev⟩
  · simp at hev

/-- A non-null pointer from the thread-cache attempt is `pBucketData` plus
a buffered offset of the probed record (from L0, else L1). -/
lemma cachePopStep_ptr (st : AllocState) (i : Nat)
    (hcp : (cachePopStep st i).1 ≠ 0) :
    i < st.bucketsCount ∧
    ((0 < (st.tls i).numElementsL0 ∧
       (cachePopStep st i).1 =
         (st.tls i).pBucketData +
           (st.tls i).storageL0 ((st.tls i).numElementsL0 - 1)) ∨
     ((st.tls i).numElementsL0 = 0 ∧ 0 < (st.tls i).numElementsL1 ∧
       (cachePopStep st i).1 =
         (st.tls i).pBucketData +
           (st.tls i).storageL1 ((st.tls i).numElementsL1 - 1))) := by
  unfold cachePopStep at hcp ⊢
  split_ifs at hcp ⊢ with h1
  · refine ⟨h1, ?_⟩
    unfold AllocFromCache at hcp ⊢
    split_ifs at hcp ⊢ with h2 h3
    · exact Or.inl ⟨h2, rfl⟩
    · exact Or.inr ⟨by omega, h3, rfl⟩
    · simp at hcp
  · simp at hcp

lemma opres_st (p : Nat) (s : AllocState) (e : List Ev) :
    (OpRes.mk p s e).st = s := rfl

/-- `Allocate` only changes the generic-allocator state, the thread-cache
record at the starting index, and buckets from the starting index up; the
configuration, arena bounds and memory are untouched. -/
lemma allocate_frame (g : GenModel) (st : AllocState) (n a : Nat) :
    (Allocate g st n a).st.bucketsCount = st.bucketsCount
    ∧ (Allocate g st n a).st.bucketSizeInBytes = st.bucketSizeInBytes
    ∧ (Allocate g st n a).st.pBuffer = st.pBuffer
    ∧ (Allocate g st n a).st.pBufferEnd = st.pBufferEnd
    ∧ (Allocate g st n a).st.mem = st.mem
    ∧ (∀ j, j ≠ startIndex n a → (Allocate g st n a).st.tls j = st.tls j)
    ∧ (∀ j, j < startIndex n a → (Allocate g st n a).st.buckets j = st.buckets j) := by
  obtain ⟨tl, hc, htl⟩ := cachePopStep_state st (startIndex n a)
  obtain ⟨f, hf, hfj⟩ := bucketLoop_state st.bucketsCount st.bucketsCount
    ((cachePopStep st (startIndex n a)).2.1) (startIndex n a)
  unfold Allocate
  split_ifs with h0 h1 h2
  · exact ⟨rfl, rfl, rfl, rfl, rfl, fun _ _ => rfl, fun _ _ => rfl⟩
  · rw [opres_st, hc]
    exact ⟨rfl, rfl, rfl, rfl, rfl, fun j hj => htl j hj, fun _ _ => rfl⟩
  · rw [opres_st, hf, hc]
    refine ⟨rfl, rfl, rfl, rfl, rfl, fun j hj => htl j hj, ?_⟩
    intro j hj
    have := hfj j (Or.inl hj)
    rw [hc] at this
    exact this
  · rw [opres_st, hf, hc]
    refine ⟨rfl, rfl, rfl, rfl, rfl, fun j hj => htl j hj, ?_⟩
    intro j hj
    have := hfj j (Or.inl hj)
    rw [hc] at this
    exact this

/-- Every event of a non-zero-size `Allocate` is a cache pop at the
starting index, a bucket pop, or the final generic-fallback call with the
original arguments and result. -/
lemma allocate_evs_cases (g : GenModel) (st : AllocState) (n a : Nat)
    (hn : n ≠ 0) (ev : Ev) (hev : ev ∈ (Allocate g st n a).evs) :
    (∃ r, ev = Ev.cachePop (startIndex n a) r) ∨
    (∃ j r, startIndex n a ≤ j ∧ j < st.bucketsCount ∧
      ev = Ev.bucketPop j r) ∨
    ev = Ev.genAllocEv n a (Allocate g st n a).ptr := by
  revert hev
  unfold Allocate
  rw [if_neg hn]
  split_ifs with h1 h2 <;> intro hev
  · rw [opres_evs] at hev
    exact Or.inl (cachePopStep_evs st _ ev hev)
  · rw [opres_evs] at hev
    rcases List.mem_append.mp hev with h | h
    · exact Or.inl (cachePopStep_evs st _ ev h)
    · exact Or.inr (Or.inl (bucketLoop_evs st.bucketsCount st.bucketsCount _
        (startIndex n a) ev h))
  · rw [opres_evs] at hev
    rw [opres_ptr]
    rcases List.mem_append.mp hev with h | h
    · rcases List.mem_append.mp h with h | h
      · exact Or.inl (cachePopStep_evs st _ ev h)
      · exact Or.inr (Or.inl (bucketLoop_evs st.bucketsCount st.bucketsCount _
          (startIndex n a) ev h))
    · exact Or.inr (Or.inr (List.mem_singleton.mp h))

/-- A non-null arena pointer returned by `Allocate` lies in the sub-region
of a bucket at or after the starting index. -/
lemma allocate_ptr_arena (g : GenModel) (st : AllocState) (n a : Nat)
    (hwf : WF st) (hcwf : CachesWF st) (hn : n ≠ 0)
    (hg : ∀ s, (g.alloc s n a).1 ≠ 0 →
      ¬(st.pBuffer ≤ (g.alloc s n a).1 ∧ (g.alloc s n a).1 < st.pBufferEnd))
    (hptr : (Allocate g st n a).ptr ≠ 0)
    (hin1 : st.pBuffer ≤ (Allocate g st n a).ptr)
    (hin2 : (Allocate g st n a).ptr < st.pBufferEnd) :
    ∃ j off, startIndex n a ≤ j ∧ j < st.bucketsCount ∧
      off < st.bucketSizeInBytes ∧
      (Allocate g st n a).ptr = st.pBuffer + j * st.bucketSizeInBytes + off := by
  obtain ⟨tl, hc, htl⟩ := cachePopStep_state st (startIndex n a)
  revert hptr hin1 hin2
  unfold Allocate
  rw [if_neg hn]
  split_ifs with h1 h2 <;> intro hptr hin1 hin2 <;> rw [opres_ptr] at *
  · -- thread-cache hit at the starting index
    obtain ⟨hi0, hcase⟩ := cachePopStep_ptr st (startIndex n a) h1
    obtain ⟨hpd, hb0, hb1⟩ := hcwf (startIndex n a) hi0
    rcases hcase with ⟨hcnt, hval⟩ | ⟨_, hcnt, hval⟩
    · have hpde := hpd (Or.inr (Or.inl (by omega)))
      have hoff := hb0 ((st.tls (startIndex n a)).numElementsL0 - 1) (by omega)
      refine ⟨startIndex n a,
        (st.tls (startIndex n a)).storageL0
          ((st.tls (startIndex n a)).numElementsL0 - 1),
        le_refl _, hi0, ?_, ?_⟩
      · have hS : 0 < GetBucketElementSize (startIndex n a) := by
          unfold GetBucketElementSize; omega
        omega
      · rw [hval, hpde]
    · have hpde := hpd (Or.inr (Or.inr (by omega)))
      have hoff := hb1 ((st.tls (startIndex n a)).numElementsL1 - 1) (by omega)
      refine ⟨startIndex n a,
        (st.tls (startIndex n a)).storageL1
          ((st.tls (startIndex n a)).numElementsL1 - 1),
        le_refl _, hi0, ?_, ?_⟩
      · have hS : 0 < GetBucketElementSize (startIndex n a) := by
          unfold GetBucketElementSize; omega
        omega
      · rw [hval, hpde]
  · -- bucket-advance loop hit
    have hbeq : ∀ j, ((cachePopStep st (startIndex n a)).2.1).buckets j =
        st.buckets j := by
      intro j
      rw [hc]
    obtain ⟨j, hj1, hj2, hj3, hj4⟩ := bucketLoop_ptr st.bucketsCount
      st.bucketsCount _ (startIndex n a)
      (by intro j hja hjb
          rw [hbeq j, hwf.pData j hjb]
          have := hwf.base_big
          omega)
      h2
    rw [hbeq j] at hj3 hj4
    have hpde := hwf.pData j hj2
    have hoff := hwf.headFit j hj2 hj3
    refine ⟨j, (st.buckets j).head.offset, hj1, hj2, ?_, ?_⟩
    · have hS : 0 < GetBucketElementSize j := by
        unfold GetBucketElementSize; omega
      omega
    · rw [hj4, hpde]
  · -- generic fallback: its results are never arena pointers
    exact absurd ⟨hin1, hin2⟩ (hg _ hptr)

/-- `GetBucketIndex` only reads the configuration fields. -/
lemma getBucketIndex_conf (st1 st2 : AllocState) (p : Nat)
    (h1 : st1.pBuffer = st2.pBuffer) (h2 : st1.pBufferEnd = st2.pBufferEnd)
    (h3 : st1.bucketsCount = st2.bucketsCount)
    (h4 : st1.bucketSizeInBytes = st2.bucketSizeInBytes) :
    GetBucketIndex st1 p = GetBucketIndex st2 p := by
  unfold GetBucketIndex IsMyAlloc FindBucket
  rw [h1, h2, h3, h4]

/-- `GetBucketIndex` on an address inside bucket `j`'s sub-region is `j`. -/
lemma getBucketIndex_arena (st : AllocState) (hwf : WF st) (j off : Nat)
    (hj : j < st.bucketsCount) (hoff : off < st.bucketSizeInBytes) :
    GetBucketIndex st (st.pBuffer + j * st.bucketSizeInBytes + off) =
      (j : Int) := by
  have hfb := findBucket_arena st hwf j off hj hoff
  have hlt : st.pBuffer + j * st.bucketSizeInBytes + off < st.pBufferEnd := by
    have h2 : (j + 1) * st.bucketSizeInBytes ≤
        st.bucketsCount * st.bucketSizeInBytes :=
      Nat.mul_le_mul_right _ (by omega)
    have h3 : (j + 1) * st.bucketSizeInBytes =
        j * st.bucketSizeInBytes + st.bucketSizeInBytes := by ring
    have := hwf.bounds
    omega
  unfold GetBucketIndex
  rw [hfb]
  have hmine : IsMyAlloc st (st.pBuffer + j * st.bucketSizeInBytes + off) =
      true := by
    unfold IsMyAlloc
    simp only [Bool.and_eq_true, decide_eq_true_eq]
    omega
  rw [hmine]
  rw [if_neg (by simp), if_neg (Nat.not_le.mpr hj)]

/-- C1: for `alloc(n, a)` with `n > 0`, `a` a power of two and
`a ≤ MaxValidAlignment`: the effective size is `max n a`; the starting
bucket index `(max n a - 1) >> 4` equals `⌈max n a / 16⌉ - 1`; every
arena-owned pointer returned comes from the starting bucket or a greater
one (`bucket_of(p) ≥ start`); the thread cache is consulted only at the
starting index; the bucket loop only visits indices from the start up to
`bucketsCount`; and the generic fallback, consulted exactly when all that
failed, receives the original `n` and `a`. -/
theorem c1_allocate_dispatch (g : GenModel) (st : AllocState) (n a : Nat)
    (hwf : WF st) (hcwf : CachesWF st)
    (hg : ∀ s, (g.alloc s n a).1 ≠ 0 →
      ¬(st.pBuffer ≤ (g.alloc s n a).1 ∧ (g.alloc s n a).1 < st.pBufferEnd))
    (hn : 0 < n) (ha : ∃ k, a = 2 ^ k) (_hamax : a ≤ MaxValidAlignment) :
    effSize n a = max n a
    ∧ startIndex n a + 1 = (max n a + 15) / 16
    ∧ ((Allocate g st n a).ptr ≠ 0 →
        st.pBuffer ≤ (Allocate g st n a).ptr →
        (Allocate g st n a).ptr < st.pBufferEnd →
        (startIndex n a : Int) ≤
          GetBucketIndex (Allocate g st n a).st (Allocate g st n a).ptr)
    ∧ (∀ j r, Ev.cachePop j r ∈ (Allocate g st n a).evs →
        j = startIndex n a)
    ∧ (∀ j r, Ev.bucketPop j r ∈ (Allocate g st n a).evs →
        startIndex n a ≤ j ∧ j < st.bucketsCount)
    ∧ (∀ m al r, Ev.genAllocEv m al r ∈ (Allocate g st n a).evs →
        m = n ∧ al = a ∧ r = (Allocate g st n a).ptr)
    ∧ ((Allocate g st n a).ptr = 0 →
        Ev.genAllocEv n a 0 ∈ (Allocate g st n a).evs) := by
  have heff : effSize n a = max n a := by
    unfold effSize
    split_ifs with h <;> omega
  refine ⟨heff, ?_, ?_, ?_, ?_, ?_, ?_⟩
  · unfold startIndex
    rw [heff, Nat.shiftRight_eq_div_pow]
    have h16 : (2 : Nat) ^ 4 = 16 := by norm_num
    rw [h16]
    omega
  · intro hptr hin1 hin2
    obtain ⟨j, off, hj0, hj1, hoff, he⟩ := allocate_ptr_arena g st n a hwf hcwf
      (by omega) hg hptr hin1 hin2
    obtain ⟨e1, e2, e3, e4, _, _, _⟩ := allocate_frame g st n a
    rw [getBucketIndex_conf (Allocate g st n a).st st _ e3 e4 e1 e2, he,
      getBucketIndex_arena st hwf j off hj1 hoff]
    omega
  · intro j r hev
    rcases allocate_evs_cases g st n a (by omega) _ hev with ⟨r2, he⟩ |
      ⟨j2, r2, _, _, he⟩ | he <;> cases he
    rfl
  · intro j r hev
    rcases allocate_evs_cases g st n a (by omega) _ hev with ⟨r2, he⟩ |
      ⟨j2, r2, hj1, hj2, he⟩ | he <;> cases he
    exact ⟨hj1, hj2⟩
  · intro m al r hev
    rcases allocate_evs_cases g st n a (by omega) _ hev with ⟨r2, he⟩ |
      ⟨j2, r2, _, _, he⟩ | he <;> cases he
    exact ⟨rfl, rfl, rfl⟩
  · intro hptr
    revert hptr
    unfold Allocate
    rw [if_neg (by omega : ¬n = 0)]
    split_ifs with h1 h2 <;> intro hptr <;> rw [opres_ptr] at hptr
    · exact absurd hptr h1
    · exact absurd hptr h2
    · rw [opres_evs]
      rw [opres_ptr] at *
      rw [hptr] at *
      simp

/-- Witness for C1 on the concrete 8-bucket allocator with `alloc(24, 8)`. -/
theorem c1_allocate_dispatch_witness :
    WF (mkState 65536 8 4096) ∧ CachesWF (mkState 65536 8 4096) ∧
    effSize 24 8 = max 24 8 ∧
    startIndex 24 8 + 1 = (max 24 8 + 15) / 16 ∧
    (∀ j r, Ev.cachePop j r ∈
      (Allocate gNull (mkState 65536 8 4096) 24 8).evs → j = startIndex 24 8) ∧
    (∀ j r, Ev.bucketPop j r ∈
      (Allocate gNull (mkState 65536 8 4096) 24 8).evs →
      startIndex 24 8 ≤ j ∧ j < (mkState 65536 8 4096).bucketsCount) := by
  have h := c1_allocate_dispatch gNull (mkState 65536 8 4096) 24 8 (by decide)
    (by decide) (fun s hps => absurd rfl hps) (by decide) ⟨3, rfl⟩ (by decide)
  exact ⟨by decide, by decide, h.1, h.2.1, h.2.2.2.1, h.2.2.2.2.1⟩

/-- Any non-null `Allocate` result is either an arena pointer of a bucket
at or after the starting index, or a non-null result of the generic
fallback. -/
lemma allocate_ptr_cases (g : GenModel) (st : AllocState) (n a : Nat)
    (hwf : WF st) (hcwf : CachesWF st) (hn : n ≠ 0) :
    (Allocate g st n a).ptr = 0 ∨
    (∃ j off, startIndex n a ≤ j ∧ j < st.bucketsCount ∧
      off < st.bucketSizeInBytes ∧
      (Allocate g st n a).ptr = st.pBuffer + j * st.bucketSizeInBytes + off) ∨
    (∃ s, (Allocate g st n a).ptr = (g.alloc s n a).1 ∧
      (g.alloc s n a).1 ≠ 0) := by
  obtain ⟨tl, hc, htl⟩ := cachePopStep_state st (startIndex n a)
  by_cases hp : (Allocate g st n a).ptr = 0
  · exact Or.inl hp
  refine Or.inr ?_
  revert hp
  unfold Allocate
  rw [if_neg hn]
  split_ifs with h1 h2 <;> intro hp <;> rw [opres_ptr] at hp ⊢
  · -- thread-cache hit at the starting index
    obtain ⟨hi0, hcase⟩ := cachePopStep_ptr st (startIndex n a) h1
    obtain ⟨hpd, hb0, hb1⟩ := hcwf (startIndex n a) hi0
    left
    rcases hcase with ⟨hcnt, hval⟩ | ⟨_, hcnt, hval⟩
    · have hpde := hpd (Or.inr (Or.inl (by omega)))
      have hoff := hb0 ((st.tls (startIndex n a)).numElementsL0 - 1) (by omega)
      refine ⟨startIndex n a,
        (st.tls (startIndex n a)).storageL0
          ((st.tls (startIndex n a)).numElementsL0 - 1),
        le_refl _, hi0, ?_, ?_⟩
      · have hS : 0 < GetBucketElementSize (startIndex n a) := by
          unfold GetBucketElementSize; omega
        omega
      · rw [hval, hpde]
    · have hpde := hpd (Or.inr (Or.inr (by omega)))
      have hoff := hb1 ((st.tls (startIndex n a)).numElementsL1 - 1) (by omega)
      refine ⟨startIndex n a,
        (st.tls (startIndex n a)).storageL1
          ((st.tls (startIndex n a)).numElementsL1 - 1),
        le_refl _, hi0, ?_, ?_⟩
      · have hS : 0 < GetBucketElementSize (startIndex n a) := by
          unfold GetBucketElementSize; omega
        omega
      · rw [hval, hpde]
  · -- bucket-advance loop hit
    have hbeq : ∀ j, ((cachePopStep st (startIndex n a)).2.1).buckets j =
        st.buckets j := by
      intro j
      rw [hc]
    obtain ⟨j, hj1, hj2, hj3, hj4⟩ := bucketLoop_ptr st.bucketsCount
      st.bucketsCount _ (startIndex n a)
      (by intro j hja hjb
          rw [hbeq j, hwf.pData j hjb]
          have := hwf.base_big
          omega)
      h2
    rw [hbeq j] at hj3 hj4
    have hpde := hwf.pData j hj2
    have hoff := hwf.headFit j hj2 hj3
    left
    refine ⟨j, (st.buckets j).head.offset, hj1, hj2, ?_, ?_⟩
    · have hS : 0 < GetBucketElementSize j := by
        unfold GetBucketElementSize; omega
      omega
    · rw [hj4, hpde]
  · exact Or.inr ⟨_, rfl, hp⟩

/-- The memory `ReleaseToCache` may write (flush links and the old head
into the tail slot) stays inside the window containing every buffered L1
slot's link word. -/
lemma releaseToCache_mem_frame (t : TlsPoolBucket) (b : PoolBucket)
    (mem : Mem) (p lo hiB : Nat)
    (hL1 : ∀ j, j < t.numElementsL1 →
      lo ≤ t.pBucketData + t.storageL1 j ∧
      t.pBucketData + t.storageL1 j + 8 ≤ hiB) :
    ∀ x, x < lo ∨ hiB ≤ x →
      (ReleaseToCache true t b mem p).2.2.2.1 x = mem x := by
  intro x hx
  unfold ReleaseToCache
  split_ifs with h1 h2 h3
  · rfl
  · rfl
  · rfl
  · show (ReturnL1CacheToMaster t b mem (t.numElementsL1 >>> 1)).2.2.1 x =
      mem x
    have hhalf : t.numElementsL1 >>> 1 = t.numElementsL1 / 2 := by
      rw [Nat.shiftRight_eq_div_pow]
    by_cases hc0 : t.numElementsL1 >>> 1 = 0
    · unfold ReturnL1CacheToMaster
      rw [if_pos hc0]
    · by_cases hn0 : t.numElementsL1 = 0
      · exfalso
        rw [hhalf] at hc0
        omega
      · rw [hhalf] at hc0 ⊢
        rw [returnL1_mem t b mem (t.numElementsL1 / 2) hc0 hn0
          (Nat.div_le_self _ _)]
        have hfirst : t.numElementsL1 - t.numElementsL1 / 2 <
            t.numElementsL1 := by omega
        have htl := returnLoop_tail t.storageL1 t.pBucketData t.numElementsL1
          t.numElementsL1 mem
          (t.pBucketData +
            t.storageL1 (t.numElementsL1 - t.numElementsL1 / 2))
          (t.numElementsL1 - t.numElementsL1 / 2 + 1) 0xFFFFFF (by omega)
          (by omega) (by omega) (by rw [Nat.add_sub_cancel])
        rw [htl]
        rw [writeTI_out _ _ _ x
          (by rcases hL1 (t.numElementsL1 - 1) (by omega) with ⟨ha1, ha2⟩
              omega)]
        apply returnLoop_frame
        · intro _
          rcases hL1 (t.numElementsL1 - t.numElementsL1 / 2) hfirst with
            ⟨ha1, ha2⟩
          omega
        · intro m hm hmn
          rcases hL1 m (by omega) with ⟨ha1, ha2⟩
          omega

/-- `Free` on a valid slot of bucket `i` only writes memory inside bucket
`i`'s sub-region. -/
lemma free_mem_frame (g : GenModel) (st : AllocState) (p i : Nat)
    (hfb : FindBucket st p = i) (hi : i < st.bucketsCount)
    (hread : IsReadable p)
    (hp8 : st.pBuffer + i * st.bucketSizeInBytes ≤ p ∧
      p + 8 ≤ st.pBuffer + (i + 1) * st.bucketSizeInBytes)
    (hL1 : ∀ j, j < (st.tls i).numElementsL1 →
      st.pBuffer + i * st.bucketSizeInBytes ≤
        (st.tls i).pBucketData + (st.tls i).storageL1 j ∧
      (st.tls i).pBucketData + (st.tls i).storageL1 j + 8 ≤
        st.pBuffer + (i + 1) * st.bucketSizeInBytes) :
    ∀ x, x < st.pBuffer + i * st.bucketSizeInBytes ∨
        st.pBuffer + (i + 1) * st.bucketSizeInBytes ≤ x →
      (Free g st p).1.mem x = st.mem x := by
  intro x hx
  rw [free_arena g st p i hi hfb hread]
  split_ifs with hok
  · show (ReleaseToCache true (st.tls i) (st.buckets i) st.mem p).2.2.2.1 x =
      st.mem x
    exact releaseToCache_mem_frame (st.tls i) (st.buckets i) st.mem p
      (st.pBuffer + i * st.bucketSizeInBytes)
      (st.pBuffer + (i + 1) * st.bucketSizeInBytes) hL1 x hx
  · show (PoolBucket.FreeInterval (st.buckets i) st.mem p p).2 x = st.mem x
    rw [freeInterval_mem]
    exact writeTI_out _ _ _ x (by omega)

/-- Every event of `Free` is a cache push, a `FreeInterval` call, or a
generic-allocator free. -/
lemma free_evs_shapes (g : GenModel) (st : AllocState) (p : Nat) (ev : Ev)
    (hev : ev ∈ (Free g st p).2) :
    (∃ q ok, ev = Ev.cachePush q ok) ∨ (∃ h tl, ev = Ev.fi h tl) ∨
    (∃ q, ev = Ev.genFreeEv q) := by
  by_cases h1 : IsReadable p
  · by_cases h2 : FindBucket st p < st.bucketsCount
    · rw [free_arena g st p (FindBucket st p) h2 rfl h1] at hev
      by_cases h3 : (ReleaseToCache true (st.tls (FindBucket st p))
          (st.buckets (FindBucket st p)) st.mem p).1 = true
      · rw [if_pos h3] at hev
        rcases releaseToCache_evs true (st.tls (FindBucket st p))
            (st.buckets (FindBucket st p)) st.mem p with he | he | ⟨hh, ht, he⟩ <;>
          rw [he] at hev <;> simp at hev
        · exact Or.inl ⟨p, false, hev⟩
        · exact Or.inl ⟨p, true, hev⟩
        · rcases hev with hev | hev
          · exact Or.inr (Or.inl ⟨hh, ht, hev⟩)
          · exact Or.inl ⟨p, true, hev⟩
      · rw [if_neg h3] at hev
        rcases releaseToCache_evs true (st.tls (FindBucket st p))
            (st.buckets (FindBucket st p)) st.mem p with he | he | ⟨hh, ht, he⟩ <;>
          rw [he] at hev <;> simp at hev
        · rcases hev with hev | hev
          · exact Or.inl ⟨p, false, hev⟩
          · exact Or.inr (Or.inl ⟨p, p, hev⟩)
        · rcases hev with hev | hev
          · exact Or.inl ⟨p, true, hev⟩
          · exact Or.inr (Or.inl ⟨p, p, hev⟩)
        · rcases hev with hev | hev | hev
          · exact Or.inr (Or.inl ⟨hh, ht, hev⟩)
          · exact Or.inl ⟨p, true, hev⟩
          · exact Or.inr (Or.inl ⟨p, p, hev⟩)
    · have hfr : Free g st p =
          ({ st with gen := g.free st.gen p }, [Ev.genFreeEv p]) := by
        unfold Free
        rw [if_neg (not_not_intro h1), if_neg h2]
      rw [hfr] at hev
      simp at hev
      exact Or.inr (Or.inr ⟨p, hev⟩)
  · have hfr : Free g st p = (st, []) := by
      unfold Free
      rw [if_pos h1]
    rw [hfr] at hev
    exact absurd hev (List.not_mem_nil ev)

/-- `Free` on an arena pointer always attempts the cache push of exactly
that pointer. -/
lemma free_arena_push_ev (g : GenModel) (st : AllocState) (p i : Nat)
    (hi : i < st.bucketsCount) (hfb : FindBucket st p = i)
    (hread : IsReadable p) :
    ∃ ok, Ev.cachePush p ok ∈ (Free g st p).2 := by
  rw [free_arena g st p i hi hfb hread]
  split_ifs with hok
  · rcases releaseToCache_evs true (st.tls i) (st.buckets i) st.mem p with
      he | he | ⟨hh, ht, he⟩ <;> rw [he] <;> simp
  · rcases releaseToCache_evs true (st.tls i) (st.buckets i) st.mem p with
      he | he | ⟨hh, ht, he⟩ <;> rw [he] <;> simp

/-- `FindBucket` only reads the configuration fields. -/
lemma findBucket_conf (st1 st2 : AllocState) (p : Nat)
    (h1 : st1.pBuffer = st2.pBuffer)
    (h4 : st1.bucketSizeInBytes = st2.bucketSizeInBytes) :
    FindBucket st1 p = FindBucket st2 p := by
  unfold FindBucket
  rw [h1, h4]

/-- A growth request larger than bucket `i`'s element size starts the
allocation at a strictly larger bucket index. -/
lemma startIndex_ge (n a i : Nat) (h : GetBucketElementSize i < n) :
    i + 1 ≤ startIndex n a := by
  unfold GetBucketElementSize at h
  unfold startIndex effSize
  rw [Nat.shiftRight_eq_div_pow]
  have h16 : (2 : Nat) ^ 4 = 16 := by norm_num
  rw [h16]
  split_ifs with hc <;> rw [Nat.le_div_iff_mul_le (by norm_num)] <;> omega

/-- The growth-path copy on a readable source. -/
lemma reallocCopied_pos (g : GenModel) (st : AllocState)
    (p n a S : Nat) (hread : IsReadable p) :
    reallocCopied g st p n a S =
      ({ (Allocate g st n a).st with
          mem := memmoveM (Allocate g st n a).st.mem (Allocate g st n a).ptr
            p S },
       [Ev.memmoveEv (Allocate g st n a).ptr p S]) := by
  unfold reallocCopied
  rw [if_pos hread]

/-- C2: `realloc(p, n, a)` on a valid slot `p` of bucket `i` (`p` is the
`k`-th slot of the sub-region): when `n ≤ S_i` it frees `p` and returns
`p` itself; when `n > S_i` it returns the fresh `alloc(n, a)` pointer,
performs exactly one `memmove` of exactly `S_i` bytes from `p` into it,
frees `p`, and — whenever the fresh allocation succeeded — the first
`S_i` bytes (in particular the first 16) written through `p` are intact
at the new pointer. -/
theorem c2_realloc_shrink_grow (g : GenModel) (st : AllocState)
    (p n a i k : Nat)
    (hwf : WF st) (hcwf : CachesWF st)
    (hi : i < st.bucketsCount)
    (hk : k < st.bucketSizeInBytes / GetBucketElementSize i)
    (hp : p = st.pBuffer + i * st.bucketSizeInBytes +
      k * GetBucketElementSize i)
    (hg : ∀ s m al, (g.alloc s m al).1 ≠ 0 →
      (g.alloc s m al).1 + m ≤ st.pBuffer ∨
      st.pBufferEnd ≤ (g.alloc s m al).1) :
    (n ≤ GetBucketElementSize i →
      Realloc g st p n a = ⟨p, (Free g st p).1, (Free g st p).2⟩)
    ∧ (GetBucketElementSize i < n →
        (Realloc g st p n a).ptr = (Allocate g st n a).ptr
        ∧ Ev.memmoveEv (Allocate g st n a).ptr p (GetBucketElementSize i) ∈
            (Realloc g st p n a).evs
        ∧ (∀ d s2 l, Ev.memmoveEv d s2 l ∈ (Realloc g st p n a).evs →
            d = (Allocate g st n a).ptr ∧ s2 = p ∧
            l = GetBucketElementSize i)
        ∧ (∃ ok, Ev.cachePush p ok ∈ (Realloc g st p n a).evs)
        ∧ ((Allocate g st n a).ptr ≠ 0 →
            ∀ j, j < GetBucketElementSize i →
              (Realloc g st p n a).st.mem ((Allocate g st n a).ptr + j) =
                st.mem (p + j))) := by
  have hS16 : GetBucketElementSize i = (i + 1) * 16 := rfl
  have hSpos : 0 < GetBucketElementSize i := by rw [hS16]; omega
  have hkS : k * GetBucketElementSize i + GetBucketElementSize i ≤
      st.bucketSizeInBytes := by
    have h1 : (k + 1) * GetBucketElementSize i ≤
        st.bucketSizeInBytes / GetBucketElementSize i *
          GetBucketElementSize i :=
      Nat.mul_le_mul_right _ (by omega)
    have h2 : st.bucketSizeInBytes / GetBucketElementSize i *
        GetBucketElementSize i ≤ st.bucketSizeInBytes :=
      Nat.div_mul_le_self _ _
    have h3 : (k + 1) * GetBucketElementSize i =
        k * GetBucketElementSize i + GetBucketElementSize i := by ring
    omega
  have hoff : k * GetBucketElementSize i < st.bucketSizeInBytes := by omega
  have hfb : FindBucket st p = i := by
    rw [hp]
    exact findBucket_arena st hwf i _ hi hoff
  have hbig := hwf.base_big
  have hread : IsReadable p := by
    unfold IsReadable
    omega
  have hp0 : p ≠ 0 := by
    unfold MaxValidAlignment at hbig
    omega
  constructor
  · intro hle
    unfold Realloc
    rw [if_neg hp0, hfb, if_pos hi, if_pos hle]
  · intro hgt
    have hstart := startIndex_ge n a i hgt
    obtain ⟨e1, e2, e3, e4, e5, e6, e7⟩ := allocate_frame g st n a
    have htls : (Allocate g st n a).st.tls i = st.tls i := e6 i (by omega)
    have hreq : Realloc g st p n a =
        ⟨(Allocate g st n a).ptr,
         (Free g (reallocCopied g st p n a
            (GetBucketElementSize i)).1 p).1,
         (Allocate g st n a).evs ++
           (reallocCopied g st p n a (GetBucketElementSize i)).2 ++
           (Free g (reallocCopied g st p n a
              (GetBucketElementSize i)).1 p).2⟩ := by
      unfold Realloc
      rw [if_neg hp0, hfb, if_pos hi, if_neg (by omega)]
    have hcop := reallocCopied_pos g st p n a (GetBucketElementSize i) hread
    -- the copied state: configuration equal to st, tls at i preserved
    have hst2 : (reallocCopied g st p n a (GetBucketElementSize i)).1 =
        { (Allocate g st n a).st with
            mem := memmoveM (Allocate g st n a).st.mem (Allocate g st n a).ptr
              p (GetBucketElementSize i) } := by
      rw [hcop]
    have hfb2 : FindBucket
        (reallocCopied g st p n a (GetBucketElementSize i)).1 p = i := by
      rw [hst2]
      rw [findBucket_conf _ st p (by show (Allocate g st n a).st.pBuffer = _; rw [e3])
        (by show (Allocate g st n a).st.bucketSizeInBytes = _; rw [e2])]
      exact hfb
    have hcnt2 : (reallocCopied g st p n a
        (GetBucketElementSize i)).1.bucketsCount = st.bucketsCount := by
      rw [hst2]
      show (Allocate g st n a).st.bucketsCount = _
      rw [e1]
    refine ⟨by rw [hreq], ?_, ?_, ?_, ?_⟩
    · rw [hreq, hcop]
      simp
    · intro d s2 l hev
      rw [hreq] at hev
      simp only [opres_evs] at hev
      rcases List.mem_append.mp hev with hev | hev
      · rcases List.mem_append.mp hev with hev | hev
        · rcases allocate_evs_cases g st n a (by omega) _ hev with ⟨r2, he⟩ |
            ⟨j2, r2, _, _, he⟩ | he <;> cases he
        · rw [hcop] at hev
          simp at hev
          exact ⟨hev.1, hev.2.1, hev.2.2⟩
      · rcases free_evs_shapes g _ p _ hev with ⟨q, ok, he⟩ | ⟨hh, ht, he⟩ |
          ⟨q, he⟩ <;> cases he
    · obtain ⟨ok, hok⟩ := free_arena_push_ev g
        (reallocCopied g st p n a (GetBucketElementSize i)).1 p i
        (by omega) hfb2 hread
      refine ⟨ok, ?_⟩
      rw [hreq]
      simp only [opres_evs]
      exact List.mem_append.mpr (Or.inr hok)
    · intro hptr j hj
      rw [hreq]
      simp only [opres_st]
      -- the free after the copy only writes inside bucket i's sub-region
      have hpb2 : (reallocCopied g st p n a
          (GetBucketElementSize i)).1.pBuffer = st.pBuffer := by
        rw [hst2]
        show (Allocate g st n a).st.pBuffer = _
        rw [e3]
      have hsz2 : (reallocCopied g st p n a
          (GetBucketElementSize i)).1.bucketSizeInBytes =
          st.bucketSizeInBytes := by
        rw [hst2]
        show (Allocate g st n a).st.bucketSizeInBytes = _
        rw [e2]
      have htls2 : (reallocCopied g st p n a
          (GetBucketElementSize i)).1.tls i = st.tls i := by
        rw [hst2]
        show (Allocate g st n a).st.tls i = _
        rw [htls]
      -- where does the fresh pointer lie?
      have hx : (Allocate g st n a).ptr + j <
          st.pBuffer + i * st.bucketSizeInBytes ∨
          st.pBuffer + (i + 1) * st.bucketSizeInBytes ≤
            (Allocate g st n a).ptr + j := by
        rcases allocate_ptr_cases g st n a hwf hcwf (by omega) with h0 |
          ⟨j2, off2, hj2a, hj2b, hoff2, he2⟩ | ⟨s, he2, hne2⟩
        · exact absurd h0 hptr
        · right
          have : (i + 1) * st.bucketSizeInBytes ≤
              j2 * st.bucketSizeInBytes :=
            Nat.mul_le_mul_right _ (by omega)
          omega
        · rcases hg s n a (by rw [← he2]; exact hptr) with hlow | hhigh
          · left
            have := hwf.bounds
            omega
          · right
            have hb := hwf.bounds
            have : (i + 1) * st.bucketSizeInBytes ≤
                st.bucketsCount * st.bucketSizeInBytes :=
              Nat.mul_le_mul_right _ (by omega)
            omega
      have hfr := free_mem_frame g
        (reallocCopied g st p n a (GetBucketElementSize i)).1 p i hfb2
        (by omega) hread
        (by rw [hpb2, hsz2]
            constructor
            · omega
            · have : 8 ≤ GetBucketElementSize i := by rw [hS16]; omega
              have h3 : (i + 1) * st.bucketSizeInBytes =
                  i * st.bucketSizeInBytes + st.bucketSizeInBytes := by ring
              omega)
        (by rw [hpb2, hsz2, htls2]
            intro j2 hj2
            obtain ⟨hpd, hb0, hb1⟩ := hcwf i hi
            have hpde := hpd (Or.inr (Or.inr (by omega)))
            have hbd := hb1 j2 hj2
            rw [hpde]
            have h8 : 8 ≤ GetBucketElementSize i := by rw [hS16]; omega
            have h3 : (i + 1) * st.bucketSizeInBytes =
                i * st.bucketSizeInBytes + st.bucketSizeInBytes := by ring
            omega)
        ((Allocate g st n a).ptr + j)
        (by rw [hpb2, hsz2]; exact hx)
      rw [hfr]
      -- the copied bytes at the fresh pointer are the old bytes at p
      rw [hst2]
      show memmoveM (Allocate g st n a).st.mem (Allocate g st n a).ptr p
        (GetBucketElementSize i) ((Allocate g st n a).ptr + j) = _
      unfold memmoveM
      rw [if_pos ⟨Nat.le_add_right _ _, by omega⟩, Nat.add_sub_cancel_left, e5]

/-- Witness for C2: on the 8-bucket 4096-byte arena at base 65536, slot 0
of bucket 1 is `p = 69632`; `realloc(p, 24, 16)` is a shrink (24 ≤ 32)
that frees `p` and returns `p` itself. -/
theorem c2_realloc_shrink_grow_witness :
    WF (mkState 65536 8 4096) ∧ CachesWF (mkState 65536 8 4096) ∧
    Realloc gNull (mkState 65536 8 4096) 69632 24 16 =
      ⟨69632, (Free gNull (mkState 65536 8 4096) 69632).1,
       (Free gNull (mkState 65536 8 4096) 69632).2⟩ := by
  refine ⟨by decide, by decide, ?_⟩
  exact (c2_realloc_shrink_grow gNull (mkState 65536 8 4096) 69632 24 16 1 0
    (by decide) (by decide) (by decide) (by decide) (by decide)
    (fun s m al hr => absurd rfl hr)).1 (by decide)

end Smmalloc
